import Mathlib

/-!
# Config check and config rendering of the logging operator

A shallow embedding of

* `pkg/resources/syslogng/appconfigmap.go`: `configHash`, `configCheck`,
  `configCheckCleanup` and the builders of the check objects;
* `pkg/resources/fluentbit/config.go`: `fluentBitConfigTemplate`.

The Kubernetes client is an explicit state-passing interface over an arbitrary
state type; every call the code issues is appended to a call log, so that
statements of the form "no pod is created" are statements about that log.
-/

namespace SyslogNG

/-! ## Fingerprint: `configHash` -/

/-- The 32-bit FNV prime of `hash/fnv`. -/
def prime32 : Nat := 16777619

/-- The 32-bit FNV offset basis of `hash/fnv`. -/
def offset32 : Nat := 2166136261

/-- One step of `(*sum32).Write`: `hash *= prime32; hash ^= uint32(c)` on `uint32`. -/
def fnvStep (hash : Nat) (c : UInt8) : Nat :=
  ((hash * prime32) % 2 ^ 32) ^^^ c.toNat

/-- The digest `fnv.New32()` holds after `Write(data)`, read by `Sum32()`. -/
def fnv32 (data : List UInt8) : Nat :=
  data.foldl fnvStep offset32

/-- The digit table `ldigits = "0123456789abcdefx"` of `fmt`, at index `d < 16`. -/
def ldigit (d : Nat) : Char :=
  if d < 10 then Char.ofNat (48 + d) else Char.ofNat (87 + d)

/-- The digit loop of `fmt.fmtInteger` for base 16: digits are produced from the least
significant one while `u >= 16`, then the leading digit. The first argument bounds the
number of iterations (a `uint32` needs at most seven). -/
def fmtHexLoop : Nat → Nat → List Char → List Char
  | 0, u, acc => ldigit (u % 16) :: acc
  | fuel + 1, u, acc =>
    if 16 ≤ u then fmtHexLoop fuel (u / 16) (ldigit (u % 16) :: acc)
    else ldigit u :: acc

/-- The verb `%x` of `fmt.Sprintf` applied to a `uint32`: no width, no padding. -/
def sprintfHex (u : Nat) : String :=
  String.mk (fmtHexLoop 7 u [])

/-- The value of a string of lowercase hexadecimal digits. -/
def hexValue (digits : List Char) : Nat :=
  digits.foldl (fun v ch =>
    16 * v + (if ch.toNat < 58 then ch.toNat - 48 else ch.toNat - 87)) 0

/-- Errors returned by the API client, by what `apierrors` recognises in them. -/
inductive ApiError where
  | alreadyExists
  | notFound
  | other (msg : String)
  deriving DecidableEq

/-- The predicate `apierrors.IsAlreadyExists`. -/
def IsAlreadyExists : ApiError → Bool
  | .alreadyExists => true
  | _ => false

/-- The predicate `apierrors.IsNotFound`. -/
def IsNotFound : ApiError → Bool
  | .notFound => true
  | _ => false

/-- Errors returned by the functions of the package. -/
inductive Error where
  | api (e : ApiError)
  | new (msg : String)
  | wrap (inner : Error) (msg : String)
  deriving DecidableEq

/-- The function `errors.Combine(multierr, err)` for a non-nil `err`: a combined error is
the flat list of the errors combined so far, the nil error being the empty list. -/
def Combine (multierr : List Error) (err : Error) : List Error :=
  multierr ++ [err]

/-- The method `configHash`, on the text `*r.config`: `hasher.Write` of `hash/fnv` never
fails, so the error branch is not reachable and the result is the formatted digest. -/
def configHash (config : String) : Except Error String :=
  .ok (sprintfHex (fnv32 config.toUTF8.data.toList))

/-- A fingerprint: a string `configHash` returns for some configuration text. -/
def IsFingerprint (h : String) : Prop :=
  ∃ config, configHash config = .ok h

/-! ## Kubernetes objects and the client -/

/-- The type `corev1.PodPhase`: a string type, so any string is a phase. -/
abbrev PodPhase := String

def PodPending : PodPhase := "Pending"
def PodRunning : PodPhase := "Running"
def PodSucceeded : PodPhase := "Succeeded"
def PodFailed : PodPhase := "Failed"
def PodUnknown : PodPhase := "Unknown"

/-- The fields of `metav1.ObjectMeta` the package sets or reads. -/
structure ObjectMeta where
  Name : String
  Namespace : String
  Labels : List (String × String)
  Annotations : List (String × String)
  deriving DecidableEq

/-- The type `corev1.Secret`: metadata and the `Data` map (keys in insertion order). -/
structure Secret where
  ObjectMeta : ObjectMeta
  Data : List (String × String)
  deriving DecidableEq

/-- The fields of `corev1.PodSpec` that `newCheckPod` computes; volumes are pairs of a
volume name and a secret name, mounts are pairs of a volume name and a mount path. The
remaining fields of the check pod (node selector, tolerations, affinity, priority class,
security contexts, pull secrets, resources) are copies of fields of the logging resource. -/
structure PodSpec where
  RestartPolicy : String
  ServiceAccountName : String
  Volumes : List (String × String)
  Image : String
  Args : List String
  VolumeMounts : List (String × String)
  deriving DecidableEq

/-- The type `corev1.Pod`, with `Status.Phase` as the only status field read. -/
structure Pod where
  ObjectMeta : ObjectMeta
  Spec : PodSpec
  Phase : PodPhase
  deriving DecidableEq

/-- The objects handed to the client. -/
inductive Object where
  | secret (s : Secret)
  | pod (p : Pod)
  deriving DecidableEq

/-- Kinds of API resources. -/
inductive Kind where
  | Secret
  | Pod
  deriving DecidableEq

/-- The resource an object denotes in the cluster: kind, namespace and name. It is what
`Create` and `Delete` of the client act on. -/
def Object.key : Object → Kind × String × String
  | .secret s => (Kind.Secret, s.ObjectMeta.Namespace, s.ObjectMeta.Name)
  | .pod p => (Kind.Pod, p.ObjectMeta.Namespace, p.ObjectMeta.Name)

/-- The calls of `client.Client` used by the package, over a client state `σ`. Every
call returns the next state; `Get` fills the pod on success. -/
structure Client (σ : Type) where
  Create : σ → Object → σ × Option ApiError
  List : σ → List (String × String) → σ × Except ApiError (List Pod)
  Get : σ → String → String → σ × Except ApiError Pod
  Delete : σ → Object → σ × Option ApiError

/-- A call issued to the client. -/
inductive Call where
  | Create (o : Object)
  | List (labels : List (String × String))
  | Get (ns name : String)
  | Delete (o : Object)
  deriving DecidableEq

/-- The pods for which a call log holds a `Create`, in order. -/
def podCreates (calls : List Call) : List Pod :=
  calls.filterMap (fun call => match call with
    | .Create (.pod p) => some p
    | _ => none)

/-- The objects for which a call log holds a `Delete`, in order. -/
def deletes (calls : List Call) : List Object :=
  calls.filterMap (fun call => match call with
    | .Delete o => some o
    | _ => none)

/-- Whether a call log holds a `Get`. -/
def hasGet (calls : List Call) : Bool :=
  calls.any (fun call => match call with
    | .Get _ _ => true
    | _ => false)

/-- The outcome of running a function against the client: the client state it leaves,
the calls it issued in order, and what it returns. -/
structure Run (σ α : Type) where
  st : σ
  calls : List Call
  ret : α

/-- The type `ConfigCheckResult`. -/
structure ConfigCheckResult where
  Valid : Bool
  Ready : Bool
  Message : String
  deriving DecidableEq

/-- What a value of type `runtime.Object` can be for `newCheckOutputSecret`. -/
inductive RuntimeObject where
  | secret (s : Secret)
  | other
  deriving DecidableEq

/-- The receiver `*Reconciler` as far as these functions read it. The package constants
and the methods `SyslogNGObjectMeta`, `generateConfigSecret`, `outputSecret`,
`getServiceAccount`, `QualifiedName`, `RepositoryWithTag` and `ApplyVolumeForPodSpec`
are declared outside these files and are fields here. `ConfigCheckResults` lists the keys
of the map `r.Logging.Status.ConfigCheckResults` with their values, in the order the
`range` statement visits them. -/
structure Reconciler where
  config : String
  ConfigCheckResults : List (String × Bool)
  SyslogNGObjectMeta : String → String → ObjectMeta
  QualifiedName : String → String
  generateConfigSecret : Except Error (List (String × String))
  outputSecret : Except Error RuntimeObject
  getServiceAccount : String
  RepositoryWithTag : String
  ConfigCheckAnnotations : Option (List (String × String))
  TLSEnabled : Bool
  TLSSecretName : String
  ApplyExtraVolumes : PodSpec → PodSpec
  ConfigCheckKey : String
  ConfigKey : String
  SyslogNGConfigCheckTemplate : String
  ComponentConfigCheck : String
  OutputSecretPath : String

/-- The assignment `data[k] = v` on a map kept as an association list. -/
def mapSet (data : List (String × String)) (k v : String) : List (String × String) :=
  if data.any (fun kv => kv.1 == k) then
    data.map (fun kv => if kv.1 == k then (k, v) else kv)
  else data ++ [(k, v)]

/-- The method `newCheckSecret`. -/
def newCheckSecret (r : Reconciler) (hashKey : String) : Except Error Secret :=
  match r.generateConfigSecret with
  | .error err => .error err
  | .ok data =>
    let data := mapSet data r.ConfigCheckKey r.config
    let data := mapSet data "syslog-ng.conf" r.SyslogNGConfigCheckTemplate
    .ok { ObjectMeta := r.SyslogNGObjectMeta ("syslog-ng-configcheck-" ++ hashKey)
            r.ComponentConfigCheck,
          Data := data }

/-- The method `newCheckOutputSecret`. -/
def newCheckOutputSecret (r : Reconciler) (hashKey : String) : Except Error Secret :=
  match r.outputSecret with
  | .error err => .error err
  | .ok (.secret secret) =>
    .ok { secret with
          ObjectMeta := r.SyslogNGObjectMeta ("syslog-ng-configcheck-output-" ++ hashKey)
            r.ComponentConfigCheck }
  | .ok .other =>
    .error (.new "output secret is invalid, unable to create output secret for config check")

/-- The method `newCheckPod`. -/
def newCheckPod (r : Reconciler) (hashKey : String) : Pod :=
  let om := r.SyslogNGObjectMeta ("syslog-ng-configcheck-" ++ hashKey) r.ComponentConfigCheck
  let om := match r.ConfigCheckAnnotations with
    | some a => { om with Annotations := a }
    | none => om
  let volumes :=
    [("config", r.QualifiedName ("syslog-ng-configcheck-" ++ hashKey)),
     ("output-secret", r.QualifiedName ("syslog-ng-configcheck-output-" ++ hashKey))]
  let mounts := [("config", "/etc/syslog-ng/"), ("output-secret", r.OutputSecretPath)]
  let spec : PodSpec :=
    { RestartPolicy := "Never",
      ServiceAccountName := r.getServiceAccount,
      Volumes := if r.TLSEnabled then volumes ++ [("syslog-ng-tls", r.TLSSecretName)]
        else volumes,
      Image := r.RepositoryWithTag,
      Args := ["syslog-ng", "-c", "/syslog-ng/etc/" ++ r.ConfigKey, "--dry-run"],
      VolumeMounts := if r.TLSEnabled then mounts ++ [("syslog-ng-tls", "/syslog-ng/tls/")]
        else mounts }
  { ObjectMeta := om, Spec := r.ApplyExtraVolumes spec, Phase := "" }

/-! ## `configCheck` -/

/-- The loop filling `podsByPhase`: `podsByPhase[p.Status.Phase] += 1` for every listed
pod, on a map whose missing keys read as zero. -/
def podsByPhase (items : List Pod) : PodPhase → Nat :=
  items.foldl (fun m p => Function.update m p.Phase (m p.Phase + 1)) (fun _ => 0)

/-- The `switch pod.Status.Phase` of `configCheck`, run when `Get` succeeded. -/
def checkPodPhase (phase : PodPhase) : Except Error ConfigCheckResult :=
  if phase = PodSucceeded then .ok { Valid := true, Ready := true, Message := "" }
  else if phase = PodPending then .ok { Valid := false, Ready := false, Message := "" }
  else if phase = PodRunning then .ok { Valid := false, Ready := false, Message := "" }
  else if phase = PodFailed then .ok { Valid := false, Ready := true, Message := "" }
  else .error (.new ("invalid pod status " ++ phase ++ ", unable to a validate config"))

/-- The part of `configCheck` from `pod := r.newCheckPod(hashKey)` to the end: list the
check pods, back off on a pending or running one, get the pod of `hashKey`, create it when
it is not found. `log` holds the calls issued so far. -/
def configCheckPod {σ : Type} (r : Reconciler) (c : Client σ) (hashKey : String)
    (s : σ) (log : List Call) : Run σ (Except Error ConfigCheckResult) :=
  let pod := newCheckPod r hashKey
  let l := c.List s pod.ObjectMeta.Labels
  let log := log ++ [Call.List pod.ObjectMeta.Labels]
  match l.2 with
  | .error err => ⟨l.1, log, .error (.wrap (.api err) "failed to list existing configcheck pods")⟩
  | .ok existingPods =>
    if podsByPhase existingPods PodPending > 0 then
      ⟨l.1, log, .ok
        { Valid := false, Ready := false,
          Message := "there are pending configcheck pods, need to back off" }⟩
    else if podsByPhase existingPods PodRunning > 0 then
      ⟨l.1, log, .ok
        { Valid := false, Ready := false,
          Message := "there are running configcheck pods, need to back off" }⟩
    else
      let g := c.Get l.1 pod.ObjectMeta.Namespace pod.ObjectMeta.Name
      let log := log ++ [Call.Get pod.ObjectMeta.Namespace pod.ObjectMeta.Name]
      match g.2 with
      | .ok fetched => ⟨g.1, log, checkPodPhase fetched.Phase⟩
      | .error err =>
        if !IsNotFound err then
          ⟨g.1, log, .error (.wrap (.api err)
            ("failed to get configcheck pod " ++ pod.ObjectMeta.Namespace ++ ":" ++
              pod.ObjectMeta.Name))⟩
        else
          let cr := c.Create g.1 (.pod pod)
          let log := log ++ [Call.Create (.pod pod)]
          match cr.2 with
          | some err =>
            ⟨cr.1, log, .error (.wrap (.api err) "failed to create pod for syslog-ng configcheck")⟩
          | none => ⟨cr.1, log, .ok { Valid := false, Ready := false, Message := "" }⟩

/-- The part of `configCheck` from `r.newCheckOutputSecret(hashKey)` on. -/
def configCheckOutputSecret {σ : Type} (r : Reconciler) (c : Client σ) (hashKey : String)
    (s : σ) (log : List Call) : Run σ (Except Error ConfigCheckResult) :=
  match newCheckOutputSecret r hashKey with
  | .error err => ⟨s, log, .error err⟩
  | .ok checkOutputSecret =>
    let cr := c.Create s (.secret checkOutputSecret)
    let log := log ++ [Call.Create (.secret checkOutputSecret)]
    match cr.2 with
    | some err =>
      if !IsAlreadyExists err then
        ⟨cr.1, log, .error (.wrap (.api err)
          "failed to create output secret for syslog-ng configcheck")⟩
      else configCheckPod r c hashKey cr.1 log
    | none => configCheckPod r c hashKey cr.1 log

/-- The method `configCheck`, run from the client state `s`. -/
def configCheck {σ : Type} (r : Reconciler) (c : Client σ) (s : σ) :
    Run σ (Except Error ConfigCheckResult) :=
  match configHash r.config with
  | .error err => ⟨s, [], .error err⟩
  | .ok hashKey =>
    match newCheckSecret r hashKey with
    | .error err => ⟨s, [], .error err⟩
    | .ok checkSecret =>
      let cr := c.Create s (.secret checkSecret)
      let log := [Call.Create (.secret checkSecret)]
      match cr.2 with
      | some err =>
        if !IsAlreadyExists err then
          ⟨cr.1, log, .error (.wrap (.api err) "failed to create secret for syslog-ng configcheck")⟩
        else configCheckOutputSecret r c hashKey cr.1 log
      | none => configCheckOutputSecret r c hashKey cr.1 log

/-- A `Create` that ensured its object: it succeeded or reported already-exists. -/
def Ensured (e : Option ApiError) : Prop :=
  e = none ∨ e = some ApiError.alreadyExists

/-! ## `configCheckCleanup` -/

/-- The body of the loop of `configCheckCleanup` for one `configHash` that differs from
`currentHash`: `none` when the body reaches `removedHashes = append(..)`, otherwise the
error handed to `errors.Combine` before `continue`. -/
def cleanupHash {σ : Type} (r : Reconciler) (c : Client σ) (configHash : String) (s : σ) :
    Run σ (Option Error) :=
  match newCheckSecret r configHash with
  | .error err =>
    ⟨s, [], some (.wrap err ("failed to create config check secret " ++ configHash))⟩
  | .ok newSecret =>
    let d1 := c.Delete s (.secret newSecret)
    let log := [Call.Delete (.secret newSecret)]
    match d1.2.filter (fun err => !IsNotFound err) with
    | some err =>
      ⟨d1.1, log, some (.wrap (.api err) ("failed to remove config check secret " ++ configHash))⟩
    | none =>
      match newCheckOutputSecret r configHash with
      | .error err =>
        ⟨d1.1, log,
          some (.wrap err ("failed to create config check output secret " ++ configHash))⟩
      | .ok checkOutputSecret =>
        let d2 := c.Delete d1.1 (.secret checkOutputSecret)
        let log := log ++ [Call.Delete (.secret checkOutputSecret)]
        match d2.2.filter (fun err => !IsNotFound err) with
        | some err =>
          ⟨d2.1, log, some (.wrap (.api err)
            ("failed to remove config check output secret " ++ configHash))⟩
        | none =>
          let d3 := c.Delete d2.1 (.pod (newCheckPod r configHash))
          let log := log ++ [Call.Delete (.pod (newCheckPod r configHash))]
          match d3.2.filter (fun err => !IsNotFound err) with
          | some err =>
            ⟨d3.1, log, some (.wrap (.api err)
              ("failed to remove config check pod " ++ configHash))⟩
          | none => ⟨d3.1, log, none⟩

/-- A `Delete` that failed for `configCheckCleanup`: it returned an error that is not
not-found. -/
def deleteFails (e : Option ApiError) : Prop :=
  ∃ err, e = some err ∧ IsNotFound err = false

/-- The three check objects of a fingerprint in the order `configCheckCleanup` deletes
them, when both secrets can be built. -/
def checkObjects (r : Reconciler) (hashKey : String) : List Object :=
  match newCheckSecret r hashKey, newCheckOutputSecret r hashKey with
  | .ok sec, .ok out => [.secret sec, .secret out, .pod (newCheckPod r hashKey)]
  | _, _ => []

/-- The condition under which a fingerprint counts as removed, in words: its check
objects can be built and none of its three deletions, issued in order from the client
state `s`, fails with an error other than not-found. -/
def fullyRemoved {σ : Type} (r : Reconciler) (c : Client σ) (hashKey : String) (s : σ) :
    Prop :=
  ∃ sec out, newCheckSecret r hashKey = .ok sec ∧ newCheckOutputSecret r hashKey = .ok out ∧
    ¬ deleteFails (c.Delete s (.secret sec)).2 ∧
    ¬ deleteFails (c.Delete (c.Delete s (.secret sec)).1 (.secret out)).2 ∧
    ¬ deleteFails (c.Delete (c.Delete (c.Delete s (.secret sec)).1 (.secret out)).1
        (.pod (newCheckPod r hashKey))).2

/-- The results `(removedHashes, multierr)` of `configCheckCleanup`; `multierr` is nil
exactly when the list is empty. -/
structure CleanupResult where
  removedHashes : List String
  multierr : List Error
  deriving DecidableEq

/-- The loop of `configCheckCleanup` over the keys still to visit, from the client state
`s`, the calls `log` issued so far and the results `acc` accumulated so far. -/
def cleanupLoop {σ : Type} (r : Reconciler) (c : Client σ) (currentHash : String) :
    List String → σ → List Call → CleanupResult → Run σ CleanupResult
  | [], s, log, acc => ⟨s, log, acc⟩
  | configHash :: rest, s, log, acc =>
    if configHash = currentHash then cleanupLoop r c currentHash rest s log acc
    else
      let b := cleanupHash r c configHash s
      match b.ret with
      | some err =>
        cleanupLoop r c currentHash rest b.st (log ++ b.calls)
          { acc with multierr := Combine acc.multierr err }
      | none =>
        cleanupLoop r c currentHash rest b.st (log ++ b.calls)
          { acc with removedHashes := acc.removedHashes ++ [configHash] }

/-- The loop of `configCheckCleanup` over `keys` with nothing accumulated yet: its `st` is
the client state once the fingerprints in `keys` have been handled. -/
def cleanupFrom {σ : Type} (r : Reconciler) (c : Client σ) (currentHash : String)
    (keys : List String) (s : σ) : Run σ CleanupResult :=
  cleanupLoop r c currentHash keys s [] ⟨[], []⟩

/-- The method `configCheckCleanup`, run from the client state `s`. -/
def configCheckCleanup {σ : Type} (r : Reconciler) (c : Client σ) (currentHash : String)
    (s : σ) : Run σ CleanupResult :=
  cleanupLoop r c currentHash (r.ConfigCheckResults.map Prod.fst) s [] ⟨[], []⟩

/-! ## Clients and reconcilers used in the examples -/

/-- An in-memory cluster as a client: the state is the list of stored objects. `Create`
reports already-exists on a stored key, `Delete` and `Get` report not-found on a missing
one, `List` returns the pods carrying all requested labels. -/
def fakeClient : Client (List Object) where
  Create := fun s o =>
    if s.any (fun x => x.key = o.key) then (s, some .alreadyExists) else (s ++ [o], none)
  List := fun s labels =>
    (s, .ok (s.filterMap (fun x => match x with
      | .pod p => if labels.all (fun l => p.ObjectMeta.Labels.contains l) then some p else none
      | .secret _ => none)))
  Get := fun s ns name =>
    match s.filterMap (fun x => match x with
      | .pod p => if x.key = (Kind.Pod, ns, name) then some p else none
      | .secret _ => none) with
    | p :: _ => (s, .ok p)
    | [] => (s, .error .notFound)
  Delete := fun s o =>
    if s.any (fun x => x.key = o.key) then (s.filter (fun x => x.key ≠ o.key), none)
    else (s, some .notFound)

/-- The client `c` with every already-exists answer to the `Create` of a secret replaced
by success; the state it moves to is the one of `c`. -/
def Client.ignoreSecretExists {σ : Type} (c : Client σ) : Client σ :=
  { c with
    Create := fun s o =>
      match o with
      | .secret _ =>
        ((c.Create s o).1,
          match (c.Create s o).2 with
          | some .alreadyExists => none
          | e => e)
      | .pod _ => c.Create s o }

/-- The in-memory cluster in which another pass creates the pod a `Get` has just
reported missing, before the caller of `Get` acts on the answer. -/
def racingClient : Client (List Object) :=
  { fakeClient with
    Get := fun s ns name =>
      match (fakeClient.Get s ns name).2 with
      | .ok p => (s, .ok p)
      | .error err =>
        (s ++ [.pod
          { ObjectMeta := { Name := name, Namespace := ns, Labels := [], Annotations := [] },
            Spec := { RestartPolicy := "Never", ServiceAccountName := "", Volumes := [],
                      Image := "", Args := [], VolumeMounts := [] },
            Phase := PodPending }], .error err) }

/-- The in-memory cluster whose `Get` fails with an error that is not not-found. -/
def unreachableClient : Client (List Object) :=
  { fakeClient with
    Get := fun s _ _ => (s, .error (.other "connection refused")) }

/-- The in-memory cluster whose `Create` and `Delete` are refused, with an error that is
neither already-exists nor not-found, for the objects named in `denied`. -/
def denyingClient (denied : List String) : Client (List Object) :=
  { fakeClient with
    Create := fun s o =>
      if denied.contains o.key.2.2 then (s, some (.other "forbidden"))
      else fakeClient.Create s o
    Delete := fun s o =>
      if denied.contains o.key.2.2 then (s, some (.other "forbidden"))
      else fakeClient.Delete s o }

/-- A reconciler of a logging resource named `logging` in the namespace `default`, with
the given rendered configuration and recorded config check results. -/
def exampleReconciler (config : String) (results : List (String × Bool)) : Reconciler where
  config := config
  ConfigCheckResults := results
  SyslogNGObjectMeta := fun name component =>
    { Name := "logging-" ++ name, Namespace := "default",
      Labels := [("app.kubernetes.io/component", component)], Annotations := [] }
  QualifiedName := fun name => "logging-" ++ name
  generateConfigSecret := .ok [("syslog-ng.conf", "@include generated.conf")]
  outputSecret := .ok (.secret
    { ObjectMeta := { Name := "logging-syslog-ng-output", Namespace := "default",
                      Labels := [], Annotations := [] },
      Data := [] })
  getServiceAccount := "logging-syslog-ng"
  RepositoryWithTag := "syslog-ng:4"
  ConfigCheckAnnotations := none
  TLSEnabled := false
  TLSSecretName := ""
  ApplyExtraVolumes := fun spec => spec
  ConfigCheckKey := "generated.conf"
  ConfigKey := "syslog-ng.conf"
  SyslogNGConfigCheckTemplate := "@include generated.conf"
  ComponentConfigCheck := "syslog-ng-configcheck"
  OutputSecretPath := "/etc/syslog-ng/secret"

/-- The reconciler of the examples when `generateConfigSecret` fails. -/
def brokenReconciler (results : List (String × Bool)) : Reconciler :=
  { exampleReconciler "a" results with
    generateConfigSecret := .error (.new "failed to generate the config secret") }

/-- The check pod of `hashKey` as the cluster reports it in the given phase. -/
def examplePod (config : String) (hashKey : String) (phase : PodPhase) : Object :=
  .pod { newCheckPod (exampleReconciler config []) hashKey with Phase := phase }

end SyslogNG

namespace FluentBit

/-! ## The model rendered by `fluentBitConfigTemplate`

The Go types of the model are declared outside `config.go`; the structures below hold the
fields the template reads, with the types its actions need: strings, integers, booleans,
slices, pointers (`Option`) and maps from strings to strings. A map is given by its
entries in the order in which `range` visits them. -/

/-- The field `.Monitor`. -/
structure Monitor where
  Enabled : Bool
  Port : Int
  deriving DecidableEq

/-- The field `.Input`. -/
structure Input where
  Values : List (String × String)
  ParserN : List String
  MultilineParser : List String
  deriving DecidableEq

/-- The value `.Operation` of a condition or a rule of a modify filter. -/
structure Operation where
  Op : String
  Key : String
  Value : String
  deriving DecidableEq

/-- An element of `.FilterModify`: the operations of its conditions and of its rules. -/
structure FilterModify where
  Conditions : List Operation
  Rules : List Operation
  deriving DecidableEq

/-- An element of `.Targets` of an output. -/
structure Target where
  Namespace : String
  Host : String
  Port : Int
  deriving DecidableEq

/-- The field `.Network` of an output: each optional setting has a flag telling whether
it is set, next to its value. -/
structure Network where
  ConnectTimeoutSet : Bool
  ConnectTimeout : Nat
  ConnectTimeoutLogErrorSet : Bool
  ConnectTimeoutLogError : Bool
  DNSMode : String
  DNSPreferIPV4Set : Bool
  DNSPreferIPV4 : Bool
  DNSResolver : String
  KeepaliveSet : Bool
  Keepalive : Bool
  KeepaliveIdleTimeoutSet : Bool
  KeepaliveIdleTimeout : Nat
  KeepaliveMaxRecycleSet : Bool
  KeepaliveMaxRecycle : Nat
  SourceAddress : String
  deriving DecidableEq

/-- The value `.FluentForwardOutput` points to. -/
structure FluentForwardOutput where
  Targets : List Target
  UpstreamEnabled : Bool
  UpstreamConfigPath : String
  TLSEnabled : Bool
  TLSSharedKey : String
  Network : Network
  Options : List (String × String)
  deriving DecidableEq

/-- The value `.SyslogNGOutput` points to. -/
structure SyslogNGOutput where
  Targets : List Target
  JSONDateKey : String
  JSONDateFormat : String
  Workers : Option Int
  Network : Network
  deriving DecidableEq

/-- Modelled from the spec: the type of the data `fluentBitConfigTemplate` is executed on
is declared outside `config.go`. It is a nested structure of scalars, key to value
mappings and lists, with one field for every field the template reads. -/
structure FluentBitConfig where
  Flush : Int
  Grace : Int
  LogLevel : String
  DefaultParsers : String
  CustomParsers : String
  CoroStackSize : Int
  Monitor : Monitor
  BufferStorage : List (String × String)
  Input : Input
  DisableKubernetesFilter : Bool
  KubernetesFilter : List (String × String)
  AwsFilter : List (String × String)
  FilterModify : List FilterModify
  FluentForwardOutput : Option FluentForwardOutput
  SyslogNGOutput : Option SyslogNGOutput
  deriving DecidableEq

/-- The zero value of the network settings. -/
def Network.zero : Network where
  ConnectTimeoutSet := false
  ConnectTimeout := 0
  ConnectTimeoutLogErrorSet := false
  ConnectTimeoutLogError := false
  DNSMode := ""
  DNSPreferIPV4Set := false
  DNSPreferIPV4 := false
  DNSResolver := ""
  KeepaliveSet := false
  Keepalive := false
  KeepaliveIdleTimeoutSet := false
  KeepaliveIdleTimeout := 0
  KeepaliveMaxRecycleSet := false
  KeepaliveMaxRecycle := 0
  SourceAddress := ""

/-- The zero value of the model: every field empty, zero, false or nil. -/
def FluentBitConfig.zero : FluentBitConfig where
  Flush := 0
  Grace := 0
  LogLevel := ""
  DefaultParsers := ""
  CustomParsers := ""
  CoroStackSize := 0
  Monitor := { Enabled := false, Port := 0 }
  BufferStorage := []
  Input := { Values := [], ParserN := [], MultilineParser := [] }
  DisableKubernetesFilter := false
  KubernetesFilter := []
  AwsFilter := []
  FilterModify := []
  FluentForwardOutput := none
  SyslogNGOutput := none

/-! ## The template

Each function renders one stretch of `fluentBitConfigTemplate`. The text between two
actions is written as the template has it once the trim markers `{{-` and `-}}` have
removed the white space next to them. -/

/-- The decimal text `text/template` prints for an integer. -/
def printInt (i : Int) : String :=
  match i with
  | .ofNat n => Nat.repr n
  | .negSucc n => "-" ++ Nat.repr (n + 1)

/-- The text `text/template` prints for a boolean. -/
def printBool (b : Bool) : String :=
  if b then "true" else "false"

/-- The block `range $key, $value := <map>` with the body `if $value`: one line
`    <key>  <value>` for every entry with a non-empty value. -/
def renderMap (entries : List (String × String)) : String :=
  String.join (entries.map (fun kv =>
    if kv.2 ≠ "" then "\n    " ++ kv.1 ++ "  " ++ kv.2 else ""))

/-- The section `[SERVICE]`. -/
def renderService (m : FluentBitConfig) : String :=
  "\n[SERVICE]\n    Flush        " ++ printInt m.Flush ++
  "\n    Grace        " ++ printInt m.Grace ++
  "\n    Daemon       Off\n    Log_Level    " ++ m.LogLevel ++
  "\n    Parsers_File " ++ m.DefaultParsers ++
  (if m.CustomParsers ≠ "" then "\n    Parsers_File " ++ m.CustomParsers else "") ++
  "\n    Coro_Stack_Size    " ++ printInt m.CoroStackSize ++
  (if m.Monitor.Enabled then
    "\n    HTTP_Server  On\n    HTTP_Listen  0.0.0.0\n    HTTP_Port    " ++
      printInt m.Monitor.Port
   else "") ++
  renderMap m.BufferStorage

/-- The lines `Parse_<index> <parser>` of `range $id, $v := .Input.ParserN`, the index
of the first element being `start`. -/
def renderParserN : Nat → List String → String
  | _, [] => ""
  | start, v :: rest =>
    (if v ≠ "" then "\n    Parse_" ++ Nat.repr start ++ " " ++ v else "") ++
      renderParserN (start + 1) rest

/-- The values of `range $i, $v := .Input.MultilineParser`: a comma before every element
but the first, then a space and the element. -/
def renderMultiline : Nat → List String → String
  | _, [] => ""
  | i, v :: rest =>
    (if i ≠ 0 then "," else "") ++ " " ++ v ++ renderMultiline (i + 1) rest

/-- The section `[INPUT]`. -/
def renderInput (m : FluentBitConfig) : String :=
  "\n\n[INPUT]\n    Name         tail" ++
  renderMap m.Input.Values ++
  renderParserN 0 m.Input.ParserN ++
  (if m.Input.MultilineParser ≠ [] then
    "\n    multiline.parser" ++ renderMultiline 0 m.Input.MultilineParser
   else "")

/-- The kubernetes and the aws `[FILTER]` blocks. -/
def renderFilters (m : FluentBitConfig) : String :=
  (if !m.DisableKubernetesFilter then
    "\n[FILTER]\n    Name        kubernetes" ++ renderMap m.KubernetesFilter
   else "") ++
  (if m.AwsFilter ≠ [] then
    "\n[FILTER]\n    Name        aws" ++ renderMap m.AwsFilter
   else "")

/-- The text of an operation: `<Op> <Key> ` followed by the value when it is not empty. -/
def renderOperation (o : Operation) : String :=
  o.Op ++ " " ++ o.Key ++ " " ++ (if o.Value ≠ "" then o.Value else "")

/-- One `[FILTER]` block of `range $modify := .FilterModify`. -/
def renderModify (f : FilterModify) : String :=
  "\n\n[FILTER]\n    Name modify\n    Match *" ++
  String.join (f.Conditions.map (fun o => "\n    Condition " ++ renderOperation o)) ++
  String.join (f.Rules.map (fun o => "\n    " ++ renderOperation o))

/-- The line `Match` of an output block. -/
def renderMatch (t : Target) : String :=
  if t.Namespace = "*" then "\n    Match *" else "\n    Match *_" ++ t.Namespace ++ "_*"

/-- The `net.*` lines of an output block. -/
def renderNetwork (n : Network) : String :=
  (if n.ConnectTimeoutSet then "\n    net.connect_timeout " ++ Nat.repr n.ConnectTimeout
   else "") ++
  (if n.ConnectTimeoutLogErrorSet then
    "\n    net.connect_timeout_log_error " ++ printBool n.ConnectTimeoutLogError
   else "") ++
  (if n.DNSMode ≠ "" then "\n    net.dns.mode " ++ n.DNSMode else "") ++
  (if n.DNSPreferIPV4Set then "\n    net.dns.prefer_ipv4 " ++ printBool n.DNSPreferIPV4
   else "") ++
  (if n.DNSResolver ≠ "" then "\n    net.dns.resolver " ++ n.DNSResolver else "") ++
  (if n.KeepaliveSet then "\n    net.keepalive " ++ (if n.Keepalive then "on" else "off")
   else "") ++
  (if n.KeepaliveIdleTimeoutSet then
    "\n    net.keepalive_idle_timeout " ++ Nat.repr n.KeepaliveIdleTimeout
   else "") ++
  (if n.KeepaliveMaxRecycleSet then
    "\n    net.keepalive_max_recycle " ++ Nat.repr n.KeepaliveMaxRecycle
   else "") ++
  (if n.SourceAddress ≠ "" then "\n    net.source_address " ++ n.SourceAddress else "")

/-- One `[OUTPUT]` block of the forward output, for the target `t`. -/
def renderForwardTarget (out : FluentForwardOutput) (t : Target) : String :=
  "\n[OUTPUT]\n    Name          forward" ++
  renderMatch t ++
  (if out.UpstreamEnabled then "\n    Upstream      " ++ out.UpstreamConfigPath
   else "\n    Host          " ++ t.Host ++ "\n    Port          " ++ printInt t.Port) ++
  "\n    " ++
  (if out.TLSEnabled then
    "\n    tls           On\n    tls.verify    Off" ++
    "\n    tls.ca_file   /fluent-bit/tls/ca.crt\n    tls.crt_file  /fluent-bit/tls/tls.crt" ++
    "\n    tls.key_file  /fluent-bit/tls/tls.key" ++
    (if out.TLSSharedKey ≠ "" then "\n    Shared_Key    " ++ out.TLSSharedKey
     else "\n    Empty_Shared_Key true")
   else "") ++
  renderNetwork out.Network ++
  renderMap out.Options

/-- The stretch `with $out := .FluentForwardOutput`. -/
def renderForward (m : FluentBitConfig) : String :=
  match m.FluentForwardOutput with
  | some out => String.join (out.Targets.map (renderForwardTarget out))
  | none => ""

/-- One `[OUTPUT]` block of the syslog-ng output, for the target `t`. -/
def renderSyslogNGTarget (out : SyslogNGOutput) (t : Target) : String :=
  "\n[OUTPUT]\n    Name tcp" ++
  renderMatch t ++
  "\n    Host " ++ t.Host ++ "\n    Port " ++ printInt t.Port ++
  "\n    Format json_lines" ++
  (if out.JSONDateKey ≠ "" then "\n    json_date_key " ++ out.JSONDateKey else "") ++
  (if out.JSONDateFormat ≠ "" then "\n    json_date_format " ++ out.JSONDateFormat
   else "") ++
  (match out.Workers with
   | some w => "\n    Workers " ++ printInt w
   | none => "") ++
  renderNetwork out.Network

/-- The stretch `with $out := .SyslogNGOutput`. -/
def renderSyslogNG (m : FluentBitConfig) : String :=
  match m.SyslogNGOutput with
  | some out => String.join (out.Targets.map (renderSyslogNGTarget out))
  | none => ""

/-- The text `fluentBitConfigTemplate` renders for the model `m`. -/
def render (m : FluentBitConfig) : String :=
  renderService m ++ renderInput m ++ renderFilters m ++
  String.join (m.FilterModify.map renderModify) ++
  "\n\n" ++ renderForward m ++ renderSyslogNG m ++ "\n"

/-- Whether the text `t` contains the text `p`. -/
def containsText (t p : String) : Prop :=
  p.toList <:+: t.toList

instance (t p : String) : Decidable (containsText t p) := by
  unfold containsText; infer_instance

/-- Whether the text `t` starts with the text `p`. -/
def startsWithText (t p : String) : Prop :=
  p.toList <+: t.toList

instance (t p : String) : Decidable (startsWithText t p) := by
  unfold startsWithText; infer_instance

/-- The entries of a map whose value is not empty. -/
def nonEmptyEntries (entries : List (String × String)) : List (String × String) :=
  entries.filter (fun kv => kv.2 ≠ "")

/-- The lines of the section `[SERVICE]` up to the first action the template guards:
`Flush`, `Grace`, `Daemon`, `Log_Level` and the `Parsers_File` of the default parsers. -/
def serviceHead (m : FluentBitConfig) : String :=
  "\n[SERVICE]\n    Flush        " ++ printInt m.Flush ++
  "\n    Grace        " ++ printInt m.Grace ++
  "\n    Daemon       Off\n    Log_Level    " ++ m.LogLevel ++
  "\n    Parsers_File " ++ m.DefaultParsers

/-- The network settings with no flag set and no text given. -/
def Network.silent (n : Network) : Prop :=
  n.ConnectTimeoutSet = false ∧ n.ConnectTimeoutLogErrorSet = false ∧ n.DNSMode = "" ∧
  n.DNSPreferIPV4Set = false ∧ n.DNSResolver = "" ∧ n.KeepaliveSet = false ∧
  n.KeepaliveIdleTimeoutSet = false ∧ n.KeepaliveMaxRecycleSet = false ∧
  n.SourceAddress = ""

/-- A model with a modify filter whose condition has no value, and a syslog-ng output
with one target whose host is empty and whose port is zero; every other field is zero. -/
def exampleModel : FluentBitConfig :=
  { FluentBitConfig.zero with
    FilterModify := [{ Conditions := [{ Op := "Key_exists", Key := "stream", Value := "" }],
                       Rules := [] }]
    SyslogNGOutput := some
      { Targets := [{ Namespace := "*", Host := "", Port := 0 }],
        JSONDateKey := "", JSONDateFormat := "", Workers := none,
        Network := Network.zero } }

/-! ## The rendered text line by line

A second description of the text, in the words of the rule for scalar fields: a section
is a header followed by lines, each line on its own after a line break and four spaces,
and a field that is optional gives a line or none. -/

/-- The text of one line of a section, or nothing when the line is absent. -/
def optLine : Option String → String
  | some l => "\n    " ++ l
  | none => ""

/-- The text of the lines of a section, the absent ones left out. -/
def emitLines (ls : List (Option String)) : String :=
  String.join (ls.map optLine)

/-- The line `<key><value>` of a field that has a line only when its value is not empty. -/
def lineIfNonEmpty (key value : String) : Option String :=
  if value ≠ "" then some (key ++ value) else none

/-- The line `<key><value>` of a field that has a line only when its flag is set. -/
def lineIfSet (flag : Bool) (key value : String) : Option String :=
  if flag then some (key ++ value) else none

/-- The lines of a key to value map: `<key>  <value>` for the entries with a value. -/
def mapLines (entries : List (String × String)) : List (Option String) :=
  entries.map (fun kv => lineIfNonEmpty (kv.1 ++ "  ") kv.2)

/-- The `net.*` lines of an output block. -/
def networkLines (n : Network) : List (Option String) :=
  [lineIfSet n.ConnectTimeoutSet "net.connect_timeout " (Nat.repr n.ConnectTimeout),
   lineIfSet n.ConnectTimeoutLogErrorSet "net.connect_timeout_log_error "
     (printBool n.ConnectTimeoutLogError),
   lineIfNonEmpty "net.dns.mode " n.DNSMode,
   lineIfSet n.DNSPreferIPV4Set "net.dns.prefer_ipv4 " (printBool n.DNSPreferIPV4),
   lineIfNonEmpty "net.dns.resolver " n.DNSResolver,
   lineIfSet n.KeepaliveSet "net.keepalive " (if n.Keepalive then "on" else "off"),
   lineIfSet n.KeepaliveIdleTimeoutSet "net.keepalive_idle_timeout "
     (Nat.repr n.KeepaliveIdleTimeout),
   lineIfSet n.KeepaliveMaxRecycleSet "net.keepalive_max_recycle "
     (Nat.repr n.KeepaliveMaxRecycle),
   lineIfNonEmpty "net.source_address " n.SourceAddress]

/-- The lines of the section `[SERVICE]`. -/
def serviceLines (m : FluentBitConfig) : List (Option String) :=
  [some ("Flush        " ++ printInt m.Flush),
   some ("Grace        " ++ printInt m.Grace),
   some "Daemon       Off",
   some ("Log_Level    " ++ m.LogLevel),
   some ("Parsers_File " ++ m.DefaultParsers),
   lineIfNonEmpty "Parsers_File " m.CustomParsers,
   some ("Coro_Stack_Size    " ++ printInt m.CoroStackSize)] ++
  (if m.Monitor.Enabled then
    [some "HTTP_Server  On", some "HTTP_Listen  0.0.0.0",
     some ("HTTP_Port    " ++ printInt m.Monitor.Port)]
   else []) ++
  mapLines m.BufferStorage

/-- The lines `Parse_<index> <parser>`, the index of the first parser being `start`. -/
def parserLines : Nat → List String → List (Option String)
  | _, [] => []
  | start, v :: rest =>
    lineIfNonEmpty ("Parse_" ++ Nat.repr start ++ " ") v :: parserLines (start + 1) rest

/-- The lines of the section `[INPUT]`. -/
def inputLines (m : FluentBitConfig) : List (Option String) :=
  [some "Name         tail"] ++ mapLines m.Input.Values ++
  parserLines 0 m.Input.ParserN ++
  (if m.Input.MultilineParser ≠ [] then
    [some ("multiline.parser" ++ renderMultiline 0 m.Input.MultilineParser)]
   else [])

/-- The blocks of the kubernetes filter and of the aws filter. -/
def filterBlocks (m : FluentBitConfig) : String :=
  (if !m.DisableKubernetesFilter then
    "\n[FILTER]" ++ emitLines (some "Name        kubernetes" :: mapLines m.KubernetesFilter)
   else "") ++
  (if m.AwsFilter ≠ [] then
    "\n[FILTER]" ++ emitLines (some "Name        aws" :: mapLines m.AwsFilter)
   else "")

/-- The block of one modify filter: a line for every condition and for every rule, made
of the operation, the key and the value. -/
def modifyBlock (f : FilterModify) : String :=
  "\n\n[FILTER]" ++
  emitLines ([some "Name modify", some "Match *"] ++
    f.Conditions.map (fun o => some ("Condition " ++ o.Op ++ " " ++ o.Key ++ " " ++ o.Value)) ++
    f.Rules.map (fun o => some (o.Op ++ " " ++ o.Key ++ " " ++ o.Value)))

/-- The line `Match` of an output block. -/
def matchLine (t : Target) : String :=
  if t.Namespace = "*" then "Match *" else "Match *_" ++ t.Namespace ++ "_*"

/-- The lines of the `[OUTPUT]` block of the forward output for the target `t`. The line
after the address is a line of four spaces. -/
def forwardLines (out : FluentForwardOutput) (t : Target) : List (Option String) :=
  [some "Name          forward", some (matchLine t)] ++
  (if out.UpstreamEnabled then [some ("Upstream      " ++ out.UpstreamConfigPath)]
   else [some ("Host          " ++ t.Host), some ("Port          " ++ printInt t.Port)]) ++
  [some ""] ++
  (if out.TLSEnabled then
    [some "tls           On", some "tls.verify    Off",
     some "tls.ca_file   /fluent-bit/tls/ca.crt",
     some "tls.crt_file  /fluent-bit/tls/tls.crt",
     some "tls.key_file  /fluent-bit/tls/tls.key",
     if out.TLSSharedKey ≠ "" then some ("Shared_Key    " ++ out.TLSSharedKey)
     else some "Empty_Shared_Key true"]
   else []) ++
  networkLines out.Network ++ mapLines out.Options

/-- The lines of the `[OUTPUT]` block of the syslog-ng output for the target `t`. -/
def syslogNGLines (out : SyslogNGOutput) (t : Target) : List (Option String) :=
  [some "Name tcp", some (matchLine t),
   some ("Host " ++ t.Host), some ("Port " ++ printInt t.Port),
   some "Format json_lines",
   lineIfNonEmpty "json_date_key " out.JSONDateKey,
   lineIfNonEmpty "json_date_format " out.JSONDateFormat,
   out.Workers.map (fun w => "Workers " ++ printInt w)] ++
  networkLines out.Network

/-- The `[OUTPUT]` blocks: one per target of the forward output, then one per target of
the syslog-ng output. -/
def outputBlocks (m : FluentBitConfig) : String :=
  (match m.FluentForwardOutput with
   | some out =>
     String.join (out.Targets.map (fun t => "\n[OUTPUT]" ++ emitLines (forwardLines out t)))
   | none => "") ++
  (match m.SyslogNGOutput with
   | some out =>
     String.join (out.Targets.map (fun t => "\n[OUTPUT]" ++ emitLines (syslogNGLines out t)))
   | none => "")

/-- The whole text, section by section and line by line. -/
def renderByLines (m : FluentBitConfig) : String :=
  "\n[SERVICE]" ++ emitLines (serviceLines m) ++
  "\n\n[INPUT]" ++ emitLines (inputLines m) ++
  filterBlocks m ++
  String.join (m.FilterModify.map modifyBlock) ++
  "\n\n" ++ outputBlocks m ++ "\n"

end FluentBit

namespace SyslogNG

/-! ## Auxiliary facts -/

theorem foldl_podsByPhase (items : List Pod) (m : PodPhase → Nat) (ph : PodPhase) :
    items.foldl (fun m p => Function.update m p.Phase (m p.Phase + 1)) m ph
      = m ph + items.countP (fun p => p.Phase = ph) := by
  induction items generalizing m with
  | nil => simp
  | cons p ps ih =>
    simp only [List.foldl_cons, ih, List.countP_cons]
    by_cases h : p.Phase = ph
    · subst h
      simp [Function.update_same]
      omega
    · simp [Function.update_noteq (Ne.symm h), h]

theorem podsByPhase_eq_countP (items : List Pod) (ph : PodPhase) :
    podsByPhase items ph = items.countP (fun p => p.Phase = ph) := by
  simp [podsByPhase, foldl_podsByPhase]

theorem podsByPhase_pos_iff (items : List Pod) (ph : PodPhase) :
    0 < podsByPhase items ph ↔ ∃ p ∈ items, p.Phase = ph := by
  rw [podsByPhase_eq_countP, List.countP_pos_iff]
  simp

theorem podsByPhase_eq_zero (items : List Pod) (ph : PodPhase)
    (h : ∀ p ∈ items, p.Phase ≠ ph) : podsByPhase items ph = 0 := by
  rcases Nat.eq_zero_or_pos (podsByPhase items ph) with h0 | h0
  · exact h0
  · obtain ⟨p, hp, hph⟩ := (podsByPhase_pos_iff items ph).1 h0
    exact absurd hph (h p hp)

/-- With both supporting secrets ensured, `configCheck` continues with the pod part. -/
theorem configCheck_of_ensured {σ : Type} (r : Reconciler) (c : Client σ) (s0 s1 s2 : σ)
    (hashKey : String) (sec out : Secret) (e1 e2 : Option ApiError)
    (hk : configHash r.config = .ok hashKey)
    (hsec : newCheckSecret r hashKey = .ok sec)
    (hc1 : c.Create s0 (.secret sec) = (s1, e1)) (he1 : Ensured e1)
    (hout : newCheckOutputSecret r hashKey = .ok out)
    (hc2 : c.Create s1 (.secret out) = (s2, e2)) (he2 : Ensured e2) :
    configCheck r c s0 =
      configCheckPod r c hashKey s2 [Call.Create (.secret sec), Call.Create (.secret out)] := by
  have h1 : configCheck r c s0 =
      configCheckOutputSecret r c hashKey s1 [Call.Create (.secret sec)] := by
    unfold configCheck
    simp only [hk, hsec, hc1]
    rcases he1 with rfl | rfl <;> simp [IsAlreadyExists]
  rw [h1]
  unfold configCheckOutputSecret
  simp only [hout, hc2]
  rcases he2 with rfl | rfl <;> simp [IsAlreadyExists]

end SyslogNG

namespace SyslogNG

/-! ### The loop of `configCheckCleanup` -/

theorem filter_not_found_eq_none (e : Option ApiError) :
    e.filter (fun err => !IsNotFound err) = none ↔ ¬ deleteFails e := by
  unfold deleteFails
  cases e with
  | none => simp
  | some err => cases err <;> simp [Option.filter, IsNotFound]

/-- The body of the loop reaches the append exactly for a fully removed fingerprint. -/
theorem cleanupHash_ret_none_iff {σ : Type} (r : Reconciler) (c : Client σ) (h : String)
    (s : σ) : (cleanupHash r c h s).ret = none ↔ fullyRemoved r c h s := by
  unfold cleanupHash fullyRemoved
  rcases hsec : newCheckSecret r h with e | sec
  · simp
  · simp only []
    rcases hd1 : (c.Delete s (.secret sec)).2.filter (fun err => !IsNotFound err) with _ | e1
    · have h1 := (filter_not_found_eq_none _).1 hd1
      rcases hout : newCheckOutputSecret r h with e | out
      · simp
      · simp only []
        rcases hd2 : (c.Delete (c.Delete s (.secret sec)).1 (.secret out)).2.filter
            (fun err => !IsNotFound err) with _ | e2
        · have h2 := (filter_not_found_eq_none _).1 hd2
          rcases hd3 : (c.Delete (c.Delete (c.Delete s (.secret sec)).1 (.secret out)).1
              (.pod (newCheckPod r h))).2.filter (fun err => !IsNotFound err) with _ | e3
          · have h3 := (filter_not_found_eq_none _).1 hd3
            simp only [true_iff]
            exact ⟨sec, out, rfl, rfl, h1, h2, h3⟩
          · have h3 : ¬ ¬ deleteFails _ := fun hn => by
              rw [← filter_not_found_eq_none, hd3] at hn
              exact Option.noConfusion hn
            simp only [false_iff, reduceCtorEq]
            rintro ⟨sec', out', hs, ho, -, -, h3'⟩
            cases hs
            cases ho
            exact h3 h3'
        · have h2 : ¬ ¬ deleteFails _ := fun hn => by
            rw [← filter_not_found_eq_none, hd2] at hn
            exact Option.noConfusion hn
          simp only [false_iff, reduceCtorEq]
          rintro ⟨sec', out', hs, ho, -, h2', -⟩
          cases hs
          cases ho
          exact h2 h2'
    · have h1 : ¬ ¬ deleteFails _ := fun hn => by
        rw [← filter_not_found_eq_none, hd1] at hn
        exact Option.noConfusion hn
      simp only [false_iff, reduceCtorEq]
      rintro ⟨sec', out', hs, -, h1', -, -⟩
      cases hs
      exact h1 h1'

/-- The accumulators of the loop only prefix what the loop adds. -/
theorem cleanupLoop_eq {σ : Type} (r : Reconciler) (c : Client σ) (cur : String)
    (keys : List String) (s : σ) (log : List Call) (acc : CleanupResult) :
    cleanupLoop r c cur keys s log acc =
      ⟨(cleanupFrom r c cur keys s).st, log ++ (cleanupFrom r c cur keys s).calls,
        ⟨acc.removedHashes ++ (cleanupFrom r c cur keys s).ret.removedHashes,
         acc.multierr ++ (cleanupFrom r c cur keys s).ret.multierr⟩⟩ := by
  induction keys generalizing s log acc with
  | nil => simp [cleanupFrom, cleanupLoop]
  | cons k rest ih =>
    unfold cleanupFrom
    unfold cleanupLoop
    by_cases hk : k = cur
    · simp only [hk, if_true]
      rw [ih]
      rfl
    · simp only [hk, if_false]
      rcases hb : (cleanupHash r c k s).ret with _ | err
      · simp only []
        rw [ih, ih (cleanupHash r c k s).st ([] ++ (cleanupHash r c k s).calls)]
        simp [List.append_assoc]
      · simp only []
        rw [ih, ih (cleanupHash r c k s).st ([] ++ (cleanupHash r c k s).calls)]
        simp [List.append_assoc, Combine]

end SyslogNG

namespace SyslogNG

theorem configCheckCleanup_eq {σ : Type} (r : Reconciler) (c : Client σ) (cur : String)
    (s : σ) : configCheckCleanup r c cur s =
      cleanupFrom r c cur (r.ConfigCheckResults.map Prod.fst) s := rfl

theorem cleanupFrom_nil {σ : Type} (r : Reconciler) (c : Client σ) (cur : String) (s : σ) :
    cleanupFrom r c cur [] s = ⟨s, [], ⟨[], []⟩⟩ := rfl

theorem cleanupFrom_cons_self {σ : Type} (r : Reconciler) (c : Client σ) (cur : String)
    (rest : List String) (s : σ) :
    cleanupFrom r c cur (cur :: rest) s = cleanupFrom r c cur rest s := by
  unfold cleanupFrom
  rw [cleanupLoop]
  simp

/-- One turn of the loop on a fingerprint that is not the retained one. -/
theorem cleanupFrom_cons {σ : Type} (r : Reconciler) (c : Client σ) (cur k : String)
    (rest : List String) (s : σ) (hk : k ≠ cur) :
    cleanupFrom r c cur (k :: rest) s =
      ⟨(cleanupFrom r c cur rest (cleanupHash r c k s).st).st,
        (cleanupHash r c k s).calls ++
          (cleanupFrom r c cur rest (cleanupHash r c k s).st).calls,
        ⟨(if (cleanupHash r c k s).ret = none then [k] else []) ++
            (cleanupFrom r c cur rest (cleanupHash r c k s).st).ret.removedHashes,
          (cleanupHash r c k s).ret.toList ++
            (cleanupFrom r c cur rest (cleanupHash r c k s).st).ret.multierr⟩⟩ := by
  conv_lhs => unfold cleanupFrom
  rw [cleanupLoop]
  simp only [hk, if_false]
  rcases hb : (cleanupHash r c k s).ret with _ | err
  · simp only []
    rw [cleanupLoop_eq]
    simp
  · simp only []
    rw [cleanupLoop_eq]
    simp [Combine]

theorem cleanupFrom_append {σ : Type} (r : Reconciler) (c : Client σ) (cur : String)
    (pre post : List String) (s : σ) :
    cleanupFrom r c cur (pre ++ post) s =
      ⟨(cleanupFrom r c cur post (cleanupFrom r c cur pre s).st).st,
        (cleanupFrom r c cur pre s).calls ++
          (cleanupFrom r c cur post (cleanupFrom r c cur pre s).st).calls,
        ⟨(cleanupFrom r c cur pre s).ret.removedHashes ++
            (cleanupFrom r c cur post (cleanupFrom r c cur pre s).st).ret.removedHashes,
          (cleanupFrom r c cur pre s).ret.multierr ++
            (cleanupFrom r c cur post (cleanupFrom r c cur pre s).st).ret.multierr⟩⟩ := by
  induction pre generalizing s with
  | nil => simp [cleanupFrom_nil]
  | cons k rest ih =>
    by_cases hk : k = cur
    · subst hk
      simp only [List.cons_append, cleanupFrom_cons_self]
      exact ih s
    · simp only [List.cons_append, cleanupFrom_cons r c cur k _ _ hk]
      rw [ih]
      simp [List.append_assoc]

/-- Only fingerprints of the map other than the retained one are reported removed. -/
theorem mem_removedHashes {σ : Type} (r : Reconciler) (c : Client σ) (cur : String)
    (keys : List String) (s : σ) (x : String)
    (hx : x ∈ (cleanupFrom r c cur keys s).ret.removedHashes) : x ∈ keys ∧ x ≠ cur := by
  induction keys generalizing s with
  | nil => simp [cleanupFrom_nil] at hx
  | cons k rest ih =>
    by_cases hk : k = cur
    · subst hk
      rw [cleanupFrom_cons_self] at hx
      exact ⟨List.mem_cons_of_mem _ (ih s hx).1, (ih s hx).2⟩
    · rw [cleanupFrom_cons r c cur k _ _ hk] at hx
      simp only [List.mem_append] at hx
      rcases hx with hx | hx
      · by_cases hb : (cleanupHash r c k s).ret = none
        · simp only [hb, if_true, List.mem_singleton] at hx
          subst hx
          exact ⟨List.mem_cons_self _ _, hk⟩
        · simp [hb] at hx
      · exact ⟨List.mem_cons_of_mem _ (ih _ hx).1, (ih _ hx).2⟩

end SyslogNG

namespace SyslogNG

/-! ## `configHash` -/

theorem fnv32_lt (data : List UInt8) : fnv32 data < 2 ^ 32 := by
  unfold fnv32
  have step : ∀ (l : List UInt8) (h : Nat), h < 2 ^ 32 → l.foldl fnvStep h < 2 ^ 32 := by
    intro l
    induction l with
    | nil => intro h hh; simpa using hh
    | cons c rest ih =>
      intro h _
      simp only [List.foldl_cons]
      apply ih
      unfold fnvStep
      apply Nat.xor_lt_two_pow
      · exact Nat.mod_lt _ (by norm_num)
      · have := c.toNat_lt
        omega
  exact step data offset32 (by norm_num [offset32])

theorem ldigit_mem (d : Nat) (hd : d < 16) : ldigit d ∈ "0123456789abcdef".toList := by
  interval_cases d <;> decide

theorem hexValue_ldigit (d : Nat) (hd : d < 16) :
    (if (ldigit d).toNat < 58 then (ldigit d).toNat - 48 else (ldigit d).toNat - 87) = d := by
  interval_cases d <;> decide

theorem fmtHexLoop_mem (fuel u : Nat) (acc : List Char)
    (hacc : ∀ ch ∈ acc, ch ∈ "0123456789abcdef".toList) :
    ∀ ch ∈ fmtHexLoop fuel u acc, ch ∈ "0123456789abcdef".toList := by
  induction fuel generalizing u acc with
  | zero =>
    intro ch hch
    simp only [fmtHexLoop, List.mem_cons] at hch
    rcases hch with rfl | hch
    · exact ldigit_mem _ (Nat.mod_lt _ (by norm_num))
    · exact hacc ch hch
  | succ n ih =>
    intro ch hch
    unfold fmtHexLoop at hch
    split at hch
    · refine ih (u / 16) _ ?_ ch hch
      intro x hx
      simp only [List.mem_cons] at hx
      rcases hx with rfl | hx
      · exact ldigit_mem _ (Nat.mod_lt _ (by norm_num))
      · exact hacc x hx
    · simp only [List.mem_cons] at hch
      rcases hch with rfl | hch
      · exact ldigit_mem _ (by omega)
      · exact hacc ch hch

theorem fmtHexLoop_length (fuel u : Nat) (acc : List Char) :
    acc.length + 1 ≤ (fmtHexLoop fuel u acc).length ∧
    (fmtHexLoop fuel u acc).length ≤ acc.length + fuel + 1 ∧
    ((fmtHexLoop fuel u acc).length = acc.length + fuel + 1 ↔ fuel = 0 ∨ 16 ^ fuel ≤ u) := by
  induction fuel generalizing u acc with
  | zero => simp [fmtHexLoop]
  | succ n ih =>
    unfold fmtHexLoop
    split
    · rename_i h16
      obtain ⟨h1, h2, h3⟩ := ih (u / 16) (ldigit (u % 16) :: acc)
      simp only [List.length_cons] at h1 h2 h3
      refine ⟨by omega, by omega, ?_⟩
      rw [show acc.length + (n + 1) + 1 = acc.length + 1 + n + 1 by omega, h3]
      rw [Nat.le_div_iff_mul_le (by norm_num : 0 < 16), pow_succ]
      constructor
      · rintro (rfl | h)
        · right; simpa using h16
        · right; exact h
      · rintro (h | h)
        · omega
        · right; exact h
    · rename_i h16
      simp only [List.length_cons]
      refine ⟨by omega, by omega, ?_⟩
      have : 16 ≤ 16 ^ (n + 1) := by
        calc 16 = 16 ^ 1 := by norm_num
          _ ≤ 16 ^ (n + 1) := Nat.pow_le_pow_right (by norm_num) (by omega)
      constructor
      · intro h; omega
      · rintro (h | h) <;> omega

/-- With enough iterations the digit loop writes as many digits as the number has. -/
theorem fmtHexLoop_length_log (fuel u : Nat) (acc : List Char) (hu : u < 16 ^ (fuel + 1)) :
    (fmtHexLoop fuel u acc).length = acc.length + Nat.log 16 u + 1 := by
  induction fuel generalizing u acc with
  | zero =>
    have hu' : u < 16 := by simpa using hu
    simp [fmtHexLoop, Nat.log_of_lt hu']
  | succ n ih =>
    unfold fmtHexLoop
    split
    · rename_i h16
      have hdiv : u / 16 < 16 ^ (n + 1) := by
        rw [Nat.div_lt_iff_lt_mul (by norm_num)]
        rw [pow_succ] at hu
        exact hu
      rw [ih (u / 16) _ hdiv, Nat.log_of_one_lt_of_le (by norm_num) h16, List.length_cons]
      omega
    · rename_i h16
      have hu' : u < 16 := by omega
      simp [Nat.log_of_lt hu']

theorem hexValue_foldl_append (v : Nat) (acc : List Char) (d : Nat) (hd : d < 16) :
    (ldigit d :: acc).foldl (fun v ch =>
      16 * v + (if ch.toNat < 58 then ch.toNat - 48 else ch.toNat - 87)) v =
    acc.foldl (fun v ch =>
      16 * v + (if ch.toNat < 58 then ch.toNat - 48 else ch.toNat - 87)) (16 * v + d) := by
  simp only [List.foldl_cons, hexValue_ldigit d hd]

/-- With enough iterations the digit loop writes the number: read back in front of the
digits already written, the digits give `u`. -/
theorem fmtHexLoop_value (fuel u : Nat) (acc : List Char) (hu : u < 16 ^ (fuel + 1)) (v : Nat) :
    (fmtHexLoop fuel u acc).foldl (fun v ch =>
      16 * v + (if ch.toNat < 58 then ch.toNat - 48 else ch.toNat - 87)) v =
    acc.foldl (fun v ch =>
      16 * v + (if ch.toNat < 58 then ch.toNat - 48 else ch.toNat - 87))
        (16 ^ (Nat.log 16 u + 1) * v + u) := by
  induction fuel generalizing u acc v with
  | zero =>
    have hu' : u < 16 := by simpa using hu
    simp only [fmtHexLoop, Nat.mod_eq_of_lt hu']
    rw [hexValue_foldl_append v acc u hu', Nat.log_of_lt hu']
    simp
  | succ n ih =>
    unfold fmtHexLoop
    split
    · rename_i h16
      have hdiv : u / 16 < 16 ^ (n + 1) := by
        rw [Nat.div_lt_iff_lt_mul (by norm_num)]
        rw [pow_succ] at hu
        exact hu
      rw [ih (u / 16) _ hdiv v, hexValue_foldl_append _ acc (u % 16) (Nat.mod_lt _ (by norm_num))]
      congr 1
      have hlog : Nat.log 16 u = Nat.log 16 (u / 16) + 1 := by
        rw [Nat.log_of_one_lt_of_le (by norm_num) h16]
      rw [hlog, pow_succ 16 (Nat.log 16 (u / 16) + 1)]
      have := Nat.div_add_mod u 16
      ring_nf
      ring_nf at this
      omega
    · rename_i h16
      have hu' : u < 16 := by omega
      rw [hexValue_foldl_append v acc u hu', Nat.log_of_lt hu']
      simp

end SyslogNG

namespace SyslogNG

/-- C9 (as stated, refuted): the configuration `a` has the digest `0x050c5d7e`, which
`%x` prints without its leading zero, so `configHash` returns the seven characters
`50c5d7e`, while for the empty configuration it returns the eight characters `811c9dc5`. -/
theorem configHash_length_counterexample :
    configHash "a" = .ok "50c5d7e" ∧ "50c5d7e".length = 7 ∧
    configHash "" = .ok "811c9dc5" ∧ "811c9dc5".length = 8 :=
  ⟨rfl, rfl, rfl, rfl⟩

/-- C9 (amended): for every configuration text `configHash` returns, without error, a
string of at least one and at most eight characters, all of them among `0-9` and `a-f`,
that spells the 32-bit FNV digest of the text in hexadecimal with as many digits as the
digest has and no more; it has eight characters exactly when the digest is at least
`0x10000000`. -/
theorem configHash_format (config : String) :
    ∃ s, configHash config = .ok s ∧
      1 ≤ s.length ∧ s.length ≤ 8 ∧
      (∀ ch ∈ s.toList, ch ∈ "0123456789abcdef".toList) ∧
      hexValue s.toList = fnv32 config.toUTF8.data.toList ∧
      s.length = Nat.log 16 (fnv32 config.toUTF8.data.toList) + 1 ∧
      (s.length = 8 ↔ 2 ^ 28 ≤ fnv32 config.toUTF8.data.toList) := by
  refine ⟨_, rfl, ?_⟩
  have hlt := fnv32_lt config.toUTF8.data.toList
  obtain ⟨h1, h2, h3⟩ := fmtHexLoop_length 7 (fnv32 config.toUTF8.data.toList) []
  simp only [sprintfHex, String.length, String.toList]
  simp only [List.length_nil, Nat.zero_add] at h1 h2 h3
  refine ⟨h1, h2, fmtHexLoop_mem 7 _ [] (by simp), ?_, ?_, ?_⟩
  · have := fmtHexLoop_value 7 (fnv32 config.toUTF8.data.toList) []
      (by norm_num; exact hlt) 0
    simpa [hexValue] using this
  · have := fmtHexLoop_length_log 7 (fnv32 config.toUTF8.data.toList) []
      (by norm_num; exact hlt)
    simpa using this
  · rw [h3]
    norm_num

end SyslogNG

namespace SyslogNG

/-! ## The phase table of `configCheck` -/

/-- C1: in `configCheck`, when both supporting secrets are ensured, the pod list succeeds
and holds no pod in phase Pending or Running, and the Get of the pod of the fingerprint
succeeds, the outcome is the one the fetched phase alone determines: Succeeded gives
`{Valid:true, Ready:true}`, Failed gives `{Valid:false, Ready:true}`, Pending or Running
give the record `{Valid:false, Ready:false}`, each without error, and every other phase
(Unknown, the empty phase, any other string) gives an error and no record; the calls issued are the two secret creates, the list and the get,
so no pod is created. -/
theorem configCheck_fetched_phase {σ : Type} (r : Reconciler) (c : Client σ)
    (s0 s1 s2 s3 s4 : σ) (hashKey : String) (sec out : Secret) (e1 e2 : Option ApiError)
    (pods : List Pod) (fetched : Pod)
    (hk : configHash r.config = .ok hashKey)
    (hsec : newCheckSecret r hashKey = .ok sec)
    (hc1 : c.Create s0 (.secret sec) = (s1, e1)) (he1 : Ensured e1)
    (hout : newCheckOutputSecret r hashKey = .ok out)
    (hc2 : c.Create s1 (.secret out) = (s2, e2)) (he2 : Ensured e2)
    (hl : c.List s2 (newCheckPod r hashKey).ObjectMeta.Labels = (s3, .ok pods))
    (hp : ∀ p ∈ pods, p.Phase ≠ PodPending ∧ p.Phase ≠ PodRunning)
    (hg : c.Get s3 (newCheckPod r hashKey).ObjectMeta.Namespace
      (newCheckPod r hashKey).ObjectMeta.Name = (s4, .ok fetched)) :
    (fetched.Phase = PodSucceeded →
      (configCheck r c s0).ret = .ok { Valid := true, Ready := true, Message := "" }) ∧
    (fetched.Phase = PodFailed →
      (configCheck r c s0).ret = .ok { Valid := false, Ready := true, Message := "" }) ∧
    (fetched.Phase = PodPending ∨ fetched.Phase = PodRunning →
      (configCheck r c s0).ret = .ok { Valid := false, Ready := false, Message := "" }) ∧
    (fetched.Phase ≠ PodSucceeded → fetched.Phase ≠ PodFailed →
      fetched.Phase ≠ PodPending → fetched.Phase ≠ PodRunning →
      (configCheck r c s0).ret = .error
        (.new ("invalid pod status " ++ fetched.Phase ++ ", unable to a validate config"))) ∧
    (∀ p, Call.Create (.pod p) ∉ (configCheck r c s0).calls) ∧
    (configCheck r c s0).calls =
      [Call.Create (.secret sec), Call.Create (.secret out),
       Call.List (newCheckPod r hashKey).ObjectMeta.Labels,
       Call.Get (newCheckPod r hashKey).ObjectMeta.Namespace
         (newCheckPod r hashKey).ObjectMeta.Name] := by
  have hpend : podsByPhase pods PodPending = 0 :=
    podsByPhase_eq_zero pods PodPending (fun p h => (hp p h).1)
  have hrun : podsByPhase pods PodRunning = 0 :=
    podsByPhase_eq_zero pods PodRunning (fun p h => (hp p h).2)
  have hrun' : configCheck r c s0 =
      ⟨s4, [Call.Create (.secret sec), Call.Create (.secret out),
        Call.List (newCheckPod r hashKey).ObjectMeta.Labels,
        Call.Get (newCheckPod r hashKey).ObjectMeta.Namespace
          (newCheckPod r hashKey).ObjectMeta.Name], checkPodPhase fetched.Phase⟩ := by
    rw [configCheck_of_ensured r c s0 s1 s2 hashKey sec out e1 e2 hk hsec hc1 he1 hout hc2 he2]
    unfold configCheckPod
    simp only [hl, hpend, hrun, hg]
    simp
  rw [hrun']
  refine ⟨?_, ?_, ?_, ?_, ?_, rfl⟩
  · intro h
    simp [checkPodPhase, h]
  · intro h
    simp [checkPodPhase, h, PodFailed, PodSucceeded, PodPending, PodRunning]
  · rintro (h | h)
    · simp [checkPodPhase, h, PodSucceeded, PodPending]
    · simp [checkPodPhase, h, PodSucceeded, PodPending, PodRunning]
  · intro h1 h2 h3 h4
    simp [checkPodPhase, h1, h2, h3, h4]
  · intro p
    simp

/-- C1 at the in-memory cluster holding the pod of the configuration `a` (fingerprint
`50c5d7e`) in phase Succeeded. -/
theorem configCheck_fetched_phase_witness :
    (configCheck (exampleReconciler "a" []) fakeClient
        [examplePod "a" "50c5d7e" PodSucceeded]).ret
      = .ok { Valid := true, Ready := true, Message := "" } :=
  (configCheck_fetched_phase (exampleReconciler "a" []) fakeClient
    [examplePod "a" "50c5d7e" PodSucceeded] _ _ _ _ "50c5d7e" _ _ _ _ _ _
    rfl rfl rfl (Or.inl rfl) rfl rfl (Or.inl rfl) rfl (by decide) rfl).1 rfl

end SyslogNG

namespace SyslogNG

/-! ## The throttle, the creation of the pod and the supporting secrets -/

/-- C2: for every fingerprint, if the pods listed to `configCheck` hold at least one pod in
phase Pending or Running, `configCheck` returns a record with `Ready=false` and
`Valid=false` and no error; the calls it issued are the two secret creates and the list,
so it neither gets nor creates a pod, and the client is left in the state the list
returned. -/
theorem configCheck_throttle {σ : Type} (r : Reconciler) (c : Client σ)
    (s0 s1 s2 s3 : σ) (hashKey : String) (sec out : Secret) (e1 e2 : Option ApiError)
    (pods : List Pod)
    (hk : configHash r.config = .ok hashKey)
    (hsec : newCheckSecret r hashKey = .ok sec)
    (hc1 : c.Create s0 (.secret sec) = (s1, e1)) (he1 : Ensured e1)
    (hout : newCheckOutputSecret r hashKey = .ok out)
    (hc2 : c.Create s1 (.secret out) = (s2, e2)) (he2 : Ensured e2)
    (hl : c.List s2 (newCheckPod r hashKey).ObjectMeta.Labels = (s3, .ok pods))
    (hp : ∃ p ∈ pods, p.Phase = PodPending ∨ p.Phase = PodRunning) :
    (∃ res, (configCheck r c s0).ret = .ok res ∧ res.Ready = false ∧ res.Valid = false) ∧
    (configCheck r c s0).calls =
      [Call.Create (.secret sec), Call.Create (.secret out),
       Call.List (newCheckPod r hashKey).ObjectMeta.Labels] ∧
    hasGet (configCheck r c s0).calls = false ∧
    podCreates (configCheck r c s0).calls = [] ∧
    (configCheck r c s0).st = s3 := by
  rw [configCheck_of_ensured r c s0 s1 s2 hashKey sec out e1 e2 hk hsec hc1 he1 hout hc2 he2]
  unfold configCheckPod
  simp only [hl]
  by_cases hpend : podsByPhase pods PodPending > 0
  · simp [hpend, hasGet, podCreates]
  · have hrun : podsByPhase pods PodRunning > 0 := by
      obtain ⟨p, hmem, hph | hph⟩ := hp
      · exact absurd ((podsByPhase_pos_iff pods PodPending).2 ⟨p, hmem, hph⟩) hpend
      · exact (podsByPhase_pos_iff pods PodRunning).2 ⟨p, hmem, hph⟩
    simp [hpend, hrun, hasGet, podCreates]

/-- C2 at the in-memory cluster holding a running check pod of another fingerprint, for
the configuration `a` whose own pod does not exist. -/
theorem configCheck_throttle_witness :
    podCreates (configCheck (exampleReconciler "a" []) fakeClient
      [examplePod "b" "abcd" PodRunning]).calls = [] :=
  (configCheck_throttle (exampleReconciler "a" []) fakeClient
    [examplePod "b" "abcd" PodRunning] _ _ _ "50c5d7e" _ _ _ _ _
    rfl rfl rfl (Or.inl rfl) rfl rfl (Or.inl rfl) rfl
    ⟨_, List.mem_singleton.2 rfl, Or.inr rfl⟩).2.2.2.1

/-- C3: in `configCheck`, when the secrets are ensured and no listed pod is Pending or
Running: if the Get of the pod of the fingerprint reports not-found, exactly one pod
Create is issued, after the two secret creates, the list and the get, for the pod
`newCheckPod` builds, whose metadata is the one `SyslogNGObjectMeta` gives for the name
`syslog-ng-configcheck-<hash>`; when that Create succeeds the result is
`{Valid:false, Ready:false}` without error, and when it fails its error is returned
wrapped. If the Get fails with another error, that error is returned, wrapped with the
namespace and the name of the pod, the Get is the last call and no pod is created. -/
theorem configCheck_create_pod {σ : Type} (r : Reconciler) (c : Client σ)
    (s0 s1 s2 s3 s4 s5 : σ) (hashKey : String) (sec out : Secret)
    (e1 e2 e3 : Option ApiError) (pods : List Pod) (err : ApiError)
    (hk : configHash r.config = .ok hashKey)
    (hsec : newCheckSecret r hashKey = .ok sec)
    (hc1 : c.Create s0 (.secret sec) = (s1, e1)) (he1 : Ensured e1)
    (hout : newCheckOutputSecret r hashKey = .ok out)
    (hc2 : c.Create s1 (.secret out) = (s2, e2)) (he2 : Ensured e2)
    (hl : c.List s2 (newCheckPod r hashKey).ObjectMeta.Labels = (s3, .ok pods))
    (hp : ∀ p ∈ pods, p.Phase ≠ PodPending ∧ p.Phase ≠ PodRunning)
    (hg : c.Get s3 (newCheckPod r hashKey).ObjectMeta.Namespace
      (newCheckPod r hashKey).ObjectMeta.Name = (s4, .error err))
    (hc3 : c.Create s4 (.pod (newCheckPod r hashKey)) = (s5, e3)) :
    (err = .notFound →
      podCreates (configCheck r c s0).calls = [newCheckPod r hashKey] ∧
      (configCheck r c s0).calls =
        [Call.Create (.secret sec), Call.Create (.secret out),
         Call.List (newCheckPod r hashKey).ObjectMeta.Labels,
         Call.Get (newCheckPod r hashKey).ObjectMeta.Namespace
           (newCheckPod r hashKey).ObjectMeta.Name,
         Call.Create (.pod (newCheckPod r hashKey))] ∧
      (newCheckPod r hashKey).ObjectMeta.Name =
        (r.SyslogNGObjectMeta ("syslog-ng-configcheck-" ++ hashKey)
          r.ComponentConfigCheck).Name ∧
      (newCheckPod r hashKey).ObjectMeta.Namespace =
        (r.SyslogNGObjectMeta ("syslog-ng-configcheck-" ++ hashKey)
          r.ComponentConfigCheck).Namespace ∧
      (e3 = none →
        (configCheck r c s0).ret = .ok { Valid := false, Ready := false, Message := "" }) ∧
      (∀ e, e3 = some e →
        (configCheck r c s0).ret =
          .error (.wrap (.api e) "failed to create pod for syslog-ng configcheck"))) ∧
    (err ≠ .notFound →
      (configCheck r c s0).ret =
        .error (.wrap (.api err)
          ("failed to get configcheck pod " ++ (newCheckPod r hashKey).ObjectMeta.Namespace ++
            ":" ++ (newCheckPod r hashKey).ObjectMeta.Name)) ∧
      (configCheck r c s0).calls =
        [Call.Create (.secret sec), Call.Create (.secret out),
         Call.List (newCheckPod r hashKey).ObjectMeta.Labels,
         Call.Get (newCheckPod r hashKey).ObjectMeta.Namespace
           (newCheckPod r hashKey).ObjectMeta.Name] ∧
      podCreates (configCheck r c s0).calls = []) := by
  have hpend : podsByPhase pods PodPending = 0 :=
    podsByPhase_eq_zero pods PodPending (fun p h => (hp p h).1)
  have hrun : podsByPhase pods PodRunning = 0 :=
    podsByPhase_eq_zero pods PodRunning (fun p h => (hp p h).2)
  rw [configCheck_of_ensured r c s0 s1 s2 hashKey sec out e1 e2 hk hsec hc1 he1 hout hc2 he2]
  unfold configCheckPod
  simp only [hl, hpend, hrun, hg]
  constructor
  · intro hnf
    subst hnf
    refine ⟨?_, ?_, ?_, ?_, ?_, ?_⟩
    · cases e3 <;> simp [IsNotFound, hc3, podCreates]
    · cases e3 <;> simp [IsNotFound, hc3]
    · unfold newCheckPod
      cases r.ConfigCheckAnnotations <;> rfl
    · unfold newCheckPod
      cases r.ConfigCheckAnnotations <;> rfl
    · intro h3
      subst h3
      simp [IsNotFound, hc3]
    · intro e h3
      subst h3
      simp [IsNotFound, hc3]
  · intro hne
    have hnot : IsNotFound err = false := by
      cases err <;> simp_all [IsNotFound]
    simp [hnot, podCreates]

/-- C3 at the empty in-memory cluster, for the configuration `a`: the pod is created;
and at the cluster whose `Get` is refused, where that error is returned wrapped. -/
theorem configCheck_create_pod_witness :
    podCreates (configCheck (exampleReconciler "a" []) fakeClient []).calls
      = [newCheckPod (exampleReconciler "a" []) "50c5d7e"] ∧
    (configCheck (exampleReconciler "a" []) unreachableClient []).ret =
      .error (.wrap (.api (.other "connection refused"))
        ("failed to get configcheck pod " ++
          (newCheckPod (exampleReconciler "a" []) "50c5d7e").ObjectMeta.Namespace ++ ":" ++
          (newCheckPod (exampleReconciler "a" []) "50c5d7e").ObjectMeta.Name)) :=
  ⟨((configCheck_create_pod (exampleReconciler "a" []) fakeClient
      [] _ _ _ _ _ "50c5d7e" _ _ _ _ _ _ .notFound
      rfl rfl rfl (Or.inl rfl) rfl rfl (Or.inl rfl) rfl (by decide) rfl rfl).1 rfl).1,
   ((configCheck_create_pod (exampleReconciler "a" []) unreachableClient
      [] _ _ _ _ _ "50c5d7e" _ _ _ _ _ _ (.other "connection refused")
      rfl rfl rfl (Or.inl rfl) rfl rfl (Or.inl rfl) rfl (by decide) rfl rfl).2
        (by decide)).1⟩

end SyslogNG

namespace SyslogNG

/-- C7: for each of the two supporting secrets, `configCheck` cannot tell a `Create` that
reports already-exists from one that succeeds: run against the client that answers
success wherever the given one answers already-exists on a secret, it issues the same
calls and returns the same result. A `Create` of the check secret that fails with any
other error makes `configCheck` return an error and no record with that `Create` as its
only call; with the check secret ensured, the same holds for the check output secret,
the two secret creates being the only calls: nothing is listed, fetched or created. -/
theorem configCheck_ensure_secrets {σ : Type} (r : Reconciler) (c : Client σ)
    (s0 s1 s2 : σ) (hashKey : String) (sec out : Secret) (e1 e2 : Option ApiError)
    (hk : configHash r.config = .ok hashKey)
    (hsec : newCheckSecret r hashKey = .ok sec)
    (hc1 : c.Create s0 (.secret sec) = (s1, e1))
    (hout : newCheckOutputSecret r hashKey = .ok out)
    (hc2 : c.Create s1 (.secret out) = (s2, e2)) :
    (configCheck r c.ignoreSecretExists s0).ret = (configCheck r c s0).ret ∧
    (configCheck r c.ignoreSecretExists s0).calls = (configCheck r c s0).calls ∧
    (∀ err, e1 = some err → IsAlreadyExists err = false →
      (configCheck r c s0).ret =
        .error (.wrap (.api err) "failed to create secret for syslog-ng configcheck") ∧
      (configCheck r c s0).calls = [Call.Create (.secret sec)]) ∧
    (Ensured e1 → ∀ err, e2 = some err → IsAlreadyExists err = false →
      (configCheck r c s0).ret =
        .error (.wrap (.api err) "failed to create output secret for syslog-ng configcheck") ∧
      (configCheck r c s0).calls = [Call.Create (.secret sec), Call.Create (.secret out)]) := by
  have hpod : ∀ (s : σ) (log : List Call),
      configCheckPod r c.ignoreSecretExists hashKey s log = configCheckPod r c hashKey s log := by
    intro s log
    rfl
  have hos : ∀ (s : σ) (log : List Call),
      configCheckOutputSecret r c.ignoreSecretExists hashKey s log =
        configCheckOutputSecret r c hashKey s log := by
    intro s log
    unfold configCheckOutputSecret
    simp only [hout, hpod]
    simp only [Client.ignoreSecretExists]
    rcases h : (c.Create s (.secret out)).2 with _ | err
    · simp
    · cases err <;> simp [IsAlreadyExists]
  have hall : configCheck r c.ignoreSecretExists s0 = configCheck r c s0 := by
    unfold configCheck
    simp only [hk, hsec, hos]
    simp only [Client.ignoreSecretExists]
    rcases h : (c.Create s0 (.secret sec)).2 with _ | err
    · simp
    · cases err <;> simp [IsAlreadyExists]
  refine ⟨by rw [hall], by rw [hall], ?_, ?_⟩
  · intro err he hne
    subst he
    unfold configCheck
    simp [hk, hsec, hc1, hne]
  · intro he1 err he hne
    subst he
    have h1 : configCheck r c s0 =
        configCheckOutputSecret r c hashKey s1 [Call.Create (.secret sec)] := by
      unfold configCheck
      simp only [hk, hsec, hc1]
      rcases he1 with rfl | rfl <;> simp [IsAlreadyExists]
    rw [h1]
    unfold configCheckOutputSecret
    simp [hout, hc2, hne]

/-- C7 at in-memory clusters: one already holding the check secret of the configuration
`a`, where the run ends as on the empty cluster's answers, and one refusing the creation
of that secret, where the refused `Create` is the only call. -/
theorem configCheck_ensure_secrets_witness :
    (configCheck (exampleReconciler "a" []) fakeClient.ignoreSecretExists
        [.secret { ObjectMeta := (exampleReconciler "a" []).SyslogNGObjectMeta
                      "syslog-ng-configcheck-50c5d7e" "syslog-ng-configcheck",
                   Data := [] }]).ret
      = (configCheck (exampleReconciler "a" []) fakeClient
        [.secret { ObjectMeta := (exampleReconciler "a" []).SyslogNGObjectMeta
                      "syslog-ng-configcheck-50c5d7e" "syslog-ng-configcheck",
                   Data := [] }]).ret ∧
    (configCheck (exampleReconciler "a" [])
        (denyingClient ["logging-syslog-ng-configcheck-50c5d7e"]) []).calls.length = 1 ∧
    (configCheck (exampleReconciler "a" [])
        (denyingClient ["logging-syslog-ng-configcheck-output-50c5d7e"]) []).calls.length = 2 :=
  ⟨(configCheck_ensure_secrets (exampleReconciler "a" []) fakeClient _ _ _
      "50c5d7e" _ _ _ _ rfl rfl rfl rfl rfl).1,
   congrArg List.length
    ((configCheck_ensure_secrets (exampleReconciler "a" [])
      (denyingClient ["logging-syslog-ng-configcheck-50c5d7e"]) [] _ _
      "50c5d7e" _ _ _ _ rfl rfl rfl rfl rfl).2.2.1 (.other "forbidden") rfl rfl).2,
   congrArg List.length
    ((configCheck_ensure_secrets (exampleReconciler "a" [])
      (denyingClient ["logging-syslog-ng-configcheck-output-50c5d7e"]) [] _ _
      "50c5d7e" _ _ _ _ rfl rfl rfl rfl rfl).2.2.2 (Or.inl rfl) (.other "forbidden")
        rfl rfl).2⟩

/-- C8 (at the failing input): with the secrets ensured, no pod listed, the Get of the pod
reporting not-found and another pass creating the pod before the `Create` of this one,
`configCheck` issues the `Create`, is answered already-exists and returns that error
wrapped, with no record. -/
theorem configCheck_pod_create_race :
    (configCheck (exampleReconciler "a" []) racingClient []).ret =
      .error (.wrap (.api .alreadyExists) "failed to create pod for syslog-ng configcheck") ∧
    podCreates (configCheck (exampleReconciler "a" []) racingClient []).calls =
      [newCheckPod (exampleReconciler "a" []) "50c5d7e"] := by
  constructor <;> rfl

end SyslogNG

namespace SyslogNG

/-! ## `configCheckCleanup` -/

theorem string_append_left_cancel (a b c : String) (h : a ++ b = a ++ c) : b = c := by
  have h' := congrArg String.data h
  simp only [String.data_append] at h'
  exact String.ext (List.append_cancel_left h')

theorem output_name_eq (h : String) :
    "syslog-ng-configcheck-output-" ++ h = "syslog-ng-configcheck-" ++ ("output-" ++ h) := by
  rw [← String.append_assoc]
  rfl

/-- Every `Delete` of the loop is issued for a check object built from a fingerprint of
the map that is not the retained one. -/
theorem mem_deletes_cleanupFrom {σ : Type} (r : Reconciler) (c : Client σ) (cur : String)
    (keys : List String) (s : σ) (o : Object)
    (ho : o ∈ deletes (cleanupFrom r c cur keys s).calls) :
    ∃ h ∈ keys, h ≠ cur ∧
      ((∃ sec, newCheckSecret r h = .ok sec ∧ o = .secret sec) ∨
       (∃ out, newCheckOutputSecret r h = .ok out ∧ o = .secret out) ∨
       o = .pod (newCheckPod r h)) := by
  induction keys generalizing s with
  | nil => simp [cleanupFrom_nil, deletes] at ho
  | cons k rest ih =>
    by_cases hk : k = cur
    · subst hk
      rw [cleanupFrom_cons_self] at ho
      obtain ⟨h, hm, hne, hobj⟩ := ih s ho
      exact ⟨h, List.mem_cons_of_mem _ hm, hne, hobj⟩
    · rw [cleanupFrom_cons r c cur k _ _ hk] at ho
      simp only [deletes, List.filterMap_append, List.mem_append] at ho
      rcases ho with ho | ho
      · refine ⟨k, List.mem_cons_self _ _, hk, ?_⟩
        revert ho
        unfold cleanupHash
        rcases hsec : newCheckSecret r k with e | sec
        · simp
        · simp only []
          rcases (c.Delete s (.secret sec)).2.filter (fun err => !IsNotFound err) with _ | e1
          · rcases hout : newCheckOutputSecret r k with e | out
            · simp only [List.filterMap_cons, List.filterMap_nil, List.mem_singleton]
              intro ho
              exact Or.inl ⟨sec, rfl, ho⟩
            · simp only []
              rcases (c.Delete (c.Delete s (.secret sec)).1 (.secret out)).2.filter
                  (fun err => !IsNotFound err) with _ | e2
              · rcases (c.Delete (c.Delete (c.Delete s (.secret sec)).1 (.secret out)).1
                  (.pod (newCheckPod r k))).2.filter (fun err => !IsNotFound err) with _ | e3
                all_goals
                  simp only [List.filterMap_cons, List.filterMap_nil, List.mem_cons,
                    List.cons_append, List.nil_append, List.mem_singleton, List.not_mem_nil,
                    or_false]
                  rintro (ho | ho | ho)
                  · exact Or.inl ⟨sec, rfl, ho⟩
                  · exact Or.inr (Or.inl ⟨out, rfl, ho⟩)
                  · exact Or.inr (Or.inr ho)
              · simp only [List.filterMap_cons, List.filterMap_nil, List.mem_cons,
                  List.cons_append, List.nil_append, List.mem_singleton, List.not_mem_nil,
                  or_false]
                rintro (ho | ho)
                · exact Or.inl ⟨sec, rfl, ho⟩
                · exact Or.inr (Or.inl ⟨out, rfl, ho⟩)
          · simp only [List.filterMap_cons, List.filterMap_nil, List.mem_singleton]
            intro ho
            exact Or.inl ⟨sec, rfl, ho⟩
      · obtain ⟨h, hm, hne, hobj⟩ := ih _ ho
        exact ⟨h, List.mem_cons_of_mem _ hm, hne, hobj⟩

theorem newCheckSecret_name (r : Reconciler) (h : String) (sec : Secret)
    (hs : newCheckSecret r h = .ok sec) :
    sec.ObjectMeta = r.SyslogNGObjectMeta ("syslog-ng-configcheck-" ++ h)
      r.ComponentConfigCheck := by
  unfold newCheckSecret at hs
  rcases hg : r.generateConfigSecret with e | data
  · simp [hg] at hs
  · simp only [hg, Except.ok.injEq] at hs
    rw [← hs]

theorem newCheckOutputSecret_name (r : Reconciler) (h : String) (out : Secret)
    (hs : newCheckOutputSecret r h = .ok out) :
    out.ObjectMeta = r.SyslogNGObjectMeta ("syslog-ng-configcheck-output-" ++ h)
      r.ComponentConfigCheck := by
  unfold newCheckOutputSecret at hs
  rcases hg : r.outputSecret with e | obj
  · simp [hg] at hs
  · cases obj with
    | secret s0 =>
      simp only [hg, Except.ok.injEq] at hs
      rw [← hs]
    | other => simp [hg] at hs

theorem newCheckPod_name (r : Reconciler) (h : String) :
    (newCheckPod r h).ObjectMeta.Name =
      (r.SyslogNGObjectMeta ("syslog-ng-configcheck-" ++ h) r.ComponentConfigCheck).Name := by
  unfold newCheckPod
  cases r.ConfigCheckAnnotations <;> rfl

end SyslogNG

namespace SyslogNG

/-- The names of the check secret and of the check output secret differ by the infix
`output-` only: for the keys `output-abc` and `abc`, which are not digests of
`configHash`, the `Delete` issued for the check secret of `output-abc` is a `Delete` of
the resource that is the check output secret of `abc`. -/
theorem configCheckCleanup_name_collision :
    ∃ out, newCheckOutputSecret (exampleReconciler "a" [("output-abc", true)]) "abc" = .ok out ∧
      (∃ o ∈ deletes (configCheckCleanup (exampleReconciler "a" [("output-abc", true)])
          fakeClient "abc" [.secret out]).calls, o.key = (Object.secret out).key) ∧
      (configCheckCleanup (exampleReconciler "a" [("output-abc", true)])
          fakeClient "abc" [.secret out]).st = [] :=
  ⟨_, rfl, ⟨_, List.mem_cons_self _ _, rfl⟩, rfl⟩

/-- When the name `SyslogNGObjectMeta` gives an object determines the name it was given,
and no recorded key is `output-` followed by `currentHash` nor `currentHash` is `output-`
followed by a recorded key, no `Delete` of `configCheckCleanup` is issued for the
resource of the check secret, the check output secret or the check pod of `currentHash`,
and `currentHash` is not among the returned `removedHashes`. -/
theorem configCheckCleanup_retained_of_distinct_names {σ : Type} (r : Reconciler) (c : Client σ)
    (currentHash : String) (s : σ)
    (hinj : ∀ a b, (r.SyslogNGObjectMeta a r.ComponentConfigCheck).Name =
      (r.SyslogNGObjectMeta b r.ComponentConfigCheck).Name → a = b)
    (hfp : ∀ h ∈ r.ConfigCheckResults.map Prod.fst,
      h ≠ "output-" ++ currentHash ∧ currentHash ≠ "output-" ++ h) :
    (∀ o ∈ deletes (configCheckCleanup r c currentHash s).calls,
      (∀ sec, newCheckSecret r currentHash = .ok sec → o.key ≠ (Object.secret sec).key) ∧
      (∀ out, newCheckOutputSecret r currentHash = .ok out →
        o.key ≠ (Object.secret out).key) ∧
      o.key ≠ (Object.pod (newCheckPod r currentHash)).key) ∧
    currentHash ∉ (configCheckCleanup r c currentHash s).ret.removedHashes := by
  rw [configCheckCleanup_eq]
  refine ⟨?_, fun hmem => (mem_removedHashes r c currentHash _ s _ hmem).2 rfl⟩
  intro o ho
  obtain ⟨h, hm, hne, hobj⟩ := mem_deletes_cleanupFrom r c currentHash _ s o ho
  obtain ⟨hf1, hf2⟩ := hfp h hm
  have e1 : "syslog-ng-configcheck-" ++ h ≠ "syslog-ng-configcheck-" ++ currentHash :=
    fun he => hne (string_append_left_cancel _ _ _ he)
  have e2 : "syslog-ng-configcheck-output-" ++ h ≠
      "syslog-ng-configcheck-output-" ++ currentHash :=
    fun he => hne (string_append_left_cancel _ _ _ he)
  have e3 : "syslog-ng-configcheck-" ++ h ≠ "syslog-ng-configcheck-output-" ++ currentHash := by
    rw [output_name_eq]
    exact fun he => hf1 (string_append_left_cancel _ _ _ he)
  have e4 : "syslog-ng-configcheck-output-" ++ h ≠ "syslog-ng-configcheck-" ++ currentHash := by
    rw [output_name_eq]
    exact fun he => hf2 (string_append_left_cancel _ _ _ he).symm
  rcases hobj with ⟨sec, hs, rfl⟩ | ⟨out, hs, rfl⟩ | rfl
  · have hn := newCheckSecret_name r h sec hs
    refine ⟨?_, ?_, ?_⟩
    · intro sec' hs' hkey
      have hn' := newCheckSecret_name r currentHash sec' hs'
      simp only [Object.key, hn, hn', Prod.mk.injEq, true_and] at hkey
      exact e1 (hinj _ _ hkey.2)
    · intro out' hs' hkey
      have hn' := newCheckOutputSecret_name r currentHash out' hs'
      simp only [Object.key, hn, hn', Prod.mk.injEq, true_and] at hkey
      exact e3 (hinj _ _ hkey.2)
    · simp [Object.key]
  · have hn := newCheckOutputSecret_name r h out hs
    refine ⟨?_, ?_, ?_⟩
    · intro sec' hs' hkey
      have hn' := newCheckSecret_name r currentHash sec' hs'
      simp only [Object.key, hn, hn', Prod.mk.injEq, true_and] at hkey
      exact e4 (hinj _ _ hkey.2)
    · intro out' hs' hkey
      have hn' := newCheckOutputSecret_name r currentHash out' hs'
      simp only [Object.key, hn, hn', Prod.mk.injEq, true_and] at hkey
      exact e2 (hinj _ _ hkey.2)
    · simp [Object.key]
  · refine ⟨?_, ?_, ?_⟩
    · intro sec' _ hkey
      simp [Object.key] at hkey
    · intro out' _ hkey
      simp [Object.key] at hkey
    · intro hkey
      simp only [Object.key, Prod.mk.injEq, true_and] at hkey
      rw [newCheckPod_name, newCheckPod_name] at hkey
      exact e1 (hinj _ _ hkey.2)

theorem exampleReconciler_name_injective (config : String) (results : List (String × Bool))
    (a b : String)
    (h : ((exampleReconciler config results).SyslogNGObjectMeta a
        (exampleReconciler config results).ComponentConfigCheck).Name =
      ((exampleReconciler config results).SyslogNGObjectMeta b
        (exampleReconciler config results).ComponentConfigCheck).Name) : a = b :=
  string_append_left_cancel "logging-" a b h

theorem fingerprint_hex (h : String) (hf : IsFingerprint h) :
    ∀ ch ∈ h.toList, ch ∈ "0123456789abcdef".toList := by
  obtain ⟨config, hc⟩ := hf
  simp only [configHash, Except.ok.injEq] at hc
  subst hc
  exact fmtHexLoop_mem 7 _ [] (by simp)

/-- A fingerprint does not start with `output-`. -/
theorem fingerprint_ne_output (h x : String) (hf : IsFingerprint h) : h ≠ "output-" ++ x := by
  intro he
  have hmem : 'o' ∈ h.toList := by
    rw [he]
    simp only [String.toList, String.data_append]
    exact List.mem_append_left _ (by decide)
  exact absurd (fingerprint_hex h hf 'o' hmem) (by decide)

/-- C4: for every status map whose keys are fingerprints, every fingerprint `currentHash`,
every client and every state of it (failing deletes included), no `Delete` of
`configCheckCleanup` is issued for the resource (kind, namespace and name) of the check
secret, of the check output secret or of the check pod built from `currentHash`, and
`currentHash` is not among the returned `removedHashes`; the method `SyslogNGObjectMeta`,
which is declared elsewhere, is taken to give objects of different names different
names. -/
theorem configCheckCleanup_retained {σ : Type} (r : Reconciler) (c : Client σ)
    (currentHash : String) (s : σ)
    (hinj : ∀ a b, (r.SyslogNGObjectMeta a r.ComponentConfigCheck).Name =
      (r.SyslogNGObjectMeta b r.ComponentConfigCheck).Name → a = b)
    (hkeys : ∀ h ∈ r.ConfigCheckResults.map Prod.fst, IsFingerprint h)
    (hcur : IsFingerprint currentHash) :
    (∀ o ∈ deletes (configCheckCleanup r c currentHash s).calls,
      (∀ sec, newCheckSecret r currentHash = .ok sec → o.key ≠ (Object.secret sec).key) ∧
      (∀ out, newCheckOutputSecret r currentHash = .ok out →
        o.key ≠ (Object.secret out).key) ∧
      o.key ≠ (Object.pod (newCheckPod r currentHash)).key) ∧
    currentHash ∉ (configCheckCleanup r c currentHash s).ret.removedHashes :=
  configCheckCleanup_retained_of_distinct_names r c currentHash s hinj
    (fun h hm => ⟨fingerprint_ne_output h currentHash (hkeys h hm),
      fingerprint_ne_output currentHash h hcur⟩)

/-- C4 at the in-memory cluster holding the check objects of the configurations `a`
(fingerprint `50c5d7e`, retained) and of the empty configuration (fingerprint
`811c9dc5`): the three objects of `50c5d7e` are what the cleanup leaves. -/
theorem configCheckCleanup_retained_witness :
    "50c5d7e" ∉ (configCheckCleanup
      (exampleReconciler "a" [("50c5d7e", true), ("811c9dc5", false)])
      fakeClient "50c5d7e"
      (checkObjects (exampleReconciler "a" []) "50c5d7e" ++
        checkObjects (exampleReconciler "a" []) "811c9dc5")).ret.removedHashes ∧
    (configCheckCleanup
      (exampleReconciler "a" [("50c5d7e", true), ("811c9dc5", false)])
      fakeClient "50c5d7e"
      (checkObjects (exampleReconciler "a" []) "50c5d7e" ++
        checkObjects (exampleReconciler "a" []) "811c9dc5")).st =
      checkObjects (exampleReconciler "a" []) "50c5d7e" :=
  ⟨(configCheckCleanup_retained
      (exampleReconciler "a" [("50c5d7e", true), ("811c9dc5", false)])
      fakeClient "50c5d7e" _ (exampleReconciler_name_injective _ _)
      (by
        intro h hm
        simp only [exampleReconciler, List.map_cons, List.map_nil, List.mem_cons,
          List.mem_singleton, List.not_mem_nil, or_false] at hm
        rcases hm with rfl | rfl
        · exact ⟨"a", rfl⟩
        · exact ⟨"", rfl⟩)
      ⟨"a", rfl⟩).2,
   by decide⟩

end SyslogNG

namespace SyslogNG

/-- When the check objects can be built and no `Delete` fails, the body of the loop
deletes the three check objects of the fingerprint and reaches the append. -/
theorem cleanupHash_of_no_failure {σ : Type} (r : Reconciler) (c : Client σ) (h : String)
    (s : σ) (data : List (String × String)) (osec : Secret)
    (hgen : r.generateConfigSecret = .ok data)
    (hos : r.outputSecret = .ok (.secret osec))
    (hdel : ∀ s o, (c.Delete s o).2 = none ∨ (c.Delete s o).2 = some .notFound) :
    (cleanupHash r c h s).calls = (checkObjects r h).map Call.Delete ∧
    (cleanupHash r c h s).ret = none ∧ (checkObjects r h).length = 3 := by
  have hf : ∀ s o, (c.Delete s o).2.filter (fun err => !IsNotFound err) = none := by
    intro s o
    rcases hdel s o with h | h <;> simp [h, Option.filter, IsNotFound]
  unfold cleanupHash checkObjects
  simp [newCheckSecret, newCheckOutputSecret, hgen, hos, hf]

/-- C5: when the check objects can be built and every `Delete` succeeds or reports
not-found, from whatever state the client is in (so also right after a first cleanup),
`configCheckCleanup` returns a nil error, returns as `removedHashes` the fingerprints
recorded in `ConfigCheckResults` that differ from `currentHash`, each once when the
keys of the map are distinct, and issues as its only calls, for each of those
fingerprints in turn, the `Delete` of its check secret, which carries the metadata of the
name `syslog-ng-configcheck-<hash>`, of its check output secret, which carries the
metadata of the name `syslog-ng-configcheck-output-<hash>`, and of its check pod, whose
name and namespace are those of the name `syslog-ng-configcheck-<hash>`. -/
theorem configCheckCleanup_correct {σ : Type} (r : Reconciler) (c : Client σ)
    (currentHash : String) (s : σ) (data : List (String × String)) (osec : Secret)
    (hgen : r.generateConfigSecret = .ok data)
    (hos : r.outputSecret = .ok (.secret osec))
    (hdel : ∀ s o, (c.Delete s o).2 = none ∨ (c.Delete s o).2 = some .notFound) :
    (configCheckCleanup r c currentHash s).ret.multierr = [] ∧
    (configCheckCleanup r c currentHash s).ret.removedHashes =
      (r.ConfigCheckResults.map Prod.fst).filter (fun h => h ≠ currentHash) ∧
    (∀ h, h ∈ (configCheckCleanup r c currentHash s).ret.removedHashes ↔
      h ∈ r.ConfigCheckResults.map Prod.fst ∧ h ≠ currentHash) ∧
    ((r.ConfigCheckResults.map Prod.fst).Nodup →
      (configCheckCleanup r c currentHash s).ret.removedHashes.Nodup) ∧
    (configCheckCleanup r c currentHash s).calls =
      (((r.ConfigCheckResults.map Prod.fst).filter (fun h => h ≠ currentHash)).flatMap
        (checkObjects r)).map Call.Delete ∧
    (∀ h, (checkObjects r h).length = 3) ∧
    (configCheckCleanup r c currentHash s).calls =
      ((r.ConfigCheckResults.map Prod.fst).filter (fun h => h ≠ currentHash)).flatMap
        (fun h =>
          [Call.Delete (.secret
              { ObjectMeta := r.SyslogNGObjectMeta ("syslog-ng-configcheck-" ++ h)
                  r.ComponentConfigCheck,
                Data := mapSet (mapSet data r.ConfigCheckKey r.config) "syslog-ng.conf"
                  r.SyslogNGConfigCheckTemplate }),
           Call.Delete (.secret
              { ObjectMeta := r.SyslogNGObjectMeta ("syslog-ng-configcheck-output-" ++ h)
                  r.ComponentConfigCheck,
                Data := osec.Data }),
           Call.Delete (.pod (newCheckPod r h))]) ∧
    (∀ h, (Object.pod (newCheckPod r h)).key =
      (Kind.Pod,
        (r.SyslogNGObjectMeta ("syslog-ng-configcheck-" ++ h) r.ComponentConfigCheck).Namespace,
        (r.SyslogNGObjectMeta ("syslog-ng-configcheck-" ++ h) r.ComponentConfigCheck).Name)) := by
  rw [configCheckCleanup_eq]
  have key : ∀ (keys : List String) (s : σ),
      (cleanupFrom r c currentHash keys s).ret.multierr = [] ∧
      (cleanupFrom r c currentHash keys s).ret.removedHashes =
        keys.filter (fun h => h ≠ currentHash) ∧
      (cleanupFrom r c currentHash keys s).calls =
        ((keys.filter (fun h => h ≠ currentHash)).flatMap (checkObjects r)).map Call.Delete := by
    intro keys
    induction keys with
    | nil => intro s; simp [cleanupFrom_nil]
    | cons k rest ih =>
      intro s
      by_cases hk : k = currentHash
      · subst hk
        rw [cleanupFrom_cons_self]
        simpa using ih s
      · obtain ⟨hcalls, hret, -⟩ := cleanupHash_of_no_failure r c k s data osec hgen hos hdel
        obtain ⟨h1, h2, h3⟩ := ih (cleanupHash r c k s).st
        rw [cleanupFrom_cons r c currentHash k rest s hk]
        simp [hk, hret, hcalls, h1, h2, h3]
  have hobj : ∀ h, checkObjects r h =
      [.secret
          { ObjectMeta := r.SyslogNGObjectMeta ("syslog-ng-configcheck-" ++ h)
              r.ComponentConfigCheck,
            Data := mapSet (mapSet data r.ConfigCheckKey r.config) "syslog-ng.conf"
              r.SyslogNGConfigCheckTemplate },
       .secret
          { ObjectMeta := r.SyslogNGObjectMeta ("syslog-ng-configcheck-output-" ++ h)
              r.ComponentConfigCheck,
            Data := osec.Data },
       .pod (newCheckPod r h)] := by
    intro h
    simp [checkObjects, newCheckSecret, newCheckOutputSecret, hgen, hos]
  obtain ⟨h1, h2, h3⟩ := key (r.ConfigCheckResults.map Prod.fst) s
  refine ⟨h1, h2, ?_, ?_, h3, ?_, ?_, ?_⟩
  · intro h
    rw [h2]
    simp
  · intro hnd
    rw [h2]
    exact hnd.filter _
  · intro h
    exact (cleanupHash_of_no_failure r c h s data osec hgen hos hdel).2.2
  · rw [h3, List.map_flatMap]
    congr 1
    funext h
    rw [hobj h]
    rfl
  · intro h
    simp only [Object.key]
    unfold newCheckPod
    cases r.ConfigCheckAnnotations <;> rfl

theorem fakeClient_delete (s : List Object) (o : Object) :
    (fakeClient.Delete s o).2 = none ∨ (fakeClient.Delete s o).2 = some .notFound := by
  unfold fakeClient
  by_cases h : s.any (fun x => x.key = o.key) <;> simp [h]

/-- C5 at the in-memory cluster holding the check objects of `f1`, `f2` and `f3`, with
records for the three and `f1` retained: the cleanup removes `f2` and `f3`, deletes the
six resources named after them and leaves the objects of `f1`; a second cleanup run on
the state the first one left returns no error. -/
theorem configCheckCleanup_correct_witness :
    (configCheckCleanup (exampleReconciler "a" [("f1", true), ("f2", true), ("f3", false)])
        fakeClient "f1"
        (checkObjects (exampleReconciler "a" []) "f1" ++
          checkObjects (exampleReconciler "a" []) "f2" ++
          checkObjects (exampleReconciler "a" []) "f3")).ret.removedHashes = ["f2", "f3"] ∧
    (deletes (configCheckCleanup
        (exampleReconciler "a" [("f1", true), ("f2", true), ("f3", false)])
        fakeClient "f1"
        (checkObjects (exampleReconciler "a" []) "f1" ++
          checkObjects (exampleReconciler "a" []) "f2" ++
          checkObjects (exampleReconciler "a" []) "f3")).calls).map Object.key =
      [(Kind.Secret, "default", "logging-syslog-ng-configcheck-f2"),
       (Kind.Secret, "default", "logging-syslog-ng-configcheck-output-f2"),
       (Kind.Pod, "default", "logging-syslog-ng-configcheck-f2"),
       (Kind.Secret, "default", "logging-syslog-ng-configcheck-f3"),
       (Kind.Secret, "default", "logging-syslog-ng-configcheck-output-f3"),
       (Kind.Pod, "default", "logging-syslog-ng-configcheck-f3")] ∧
    (configCheckCleanup (exampleReconciler "a" [("f1", true), ("f2", true), ("f3", false)])
        fakeClient "f1"
        (checkObjects (exampleReconciler "a" []) "f1" ++
          checkObjects (exampleReconciler "a" []) "f2" ++
          checkObjects (exampleReconciler "a" []) "f3")).st =
      checkObjects (exampleReconciler "a" []) "f1" ∧
    (configCheckCleanup (exampleReconciler "a" [("f1", true), ("f2", true), ("f3", false)])
        fakeClient "f1"
        (configCheckCleanup
          (exampleReconciler "a" [("f1", true), ("f2", true), ("f3", false)])
          fakeClient "f1"
          (checkObjects (exampleReconciler "a" []) "f1" ++
            checkObjects (exampleReconciler "a" []) "f2" ++
            checkObjects (exampleReconciler "a" []) "f3")).st).ret.multierr = [] :=
  ⟨(configCheckCleanup_correct
      (exampleReconciler "a" [("f1", true), ("f2", true), ("f3", false)])
      fakeClient "f1" _ _ _ rfl rfl fakeClient_delete).2.1,
   congrArg (fun calls => (deletes calls).map Object.key)
    (configCheckCleanup_correct
      (exampleReconciler "a" [("f1", true), ("f2", true), ("f3", false)])
      fakeClient "f1" _ _ _ rfl rfl fakeClient_delete).2.2.2.2.2.2.1,
   by decide,
   (configCheckCleanup_correct
      (exampleReconciler "a" [("f1", true), ("f2", true), ("f3", false)])
      fakeClient "f1" _ _ _ rfl rfl fakeClient_delete).1⟩

end SyslogNG

namespace SyslogNG

/-- C6 (as stated, refuted): when the check secret cannot be built, no `Delete` is issued
at all, so none of the deletions of the fingerprint `f2` fails, and yet `f2`, which is
not retained, is not among the returned `removedHashes`. -/
theorem configCheckCleanup_aggregate_counterexample :
    deletes (configCheckCleanup (brokenReconciler [("f1", true), ("f2", true)])
      fakeClient "f1" []).calls = [] ∧
    "f2" ∉ (configCheckCleanup (brokenReconciler [("f1", true), ("f2", true)])
      fakeClient "f1" []).ret.removedHashes ∧
    (configCheckCleanup (brokenReconciler [("f1", true), ("f2", true)])
      fakeClient "f1" []).ret.multierr ≠ [] := by
  refine ⟨rfl, ?_, ?_⟩ <;> decide

/-- The error of the loop is non-nil exactly when some fingerprint other than the
retained one was not fully removed in the state the loop had reached. -/
theorem cleanupFrom_multierr {σ : Type} (r : Reconciler) (c : Client σ) (cur : String)
    (keys : List String) (s : σ) :
    (cleanupFrom r c cur keys s).ret.multierr ≠ [] ↔
      ∃ pre h post, keys = pre ++ h :: post ∧ h ≠ cur ∧
        ¬ fullyRemoved r c h (cleanupFrom r c cur pre s).st := by
  induction keys generalizing s with
  | nil => simp [cleanupFrom_nil]
  | cons k rest ih =>
    by_cases hk : k = cur
    · subst hk
      rw [cleanupFrom_cons_self, ih]
      constructor
      · rintro ⟨pre, h, post, hdec, hne, hnot⟩
        refine ⟨k :: pre, h, post, by rw [hdec]; rfl, hne, ?_⟩
        rwa [cleanupFrom_cons_self]
      · rintro ⟨pre, h, post, hdec, hne, hnot⟩
        cases pre with
        | nil =>
          simp only [List.nil_append, List.cons.injEq] at hdec
          exact absurd hdec.1.symm hne
        | cons p pre' =>
          simp only [List.cons_append, List.cons.injEq] at hdec
          obtain ⟨rfl, hrest⟩ := hdec
          rw [cleanupFrom_cons_self] at hnot
          exact ⟨pre', h, post, hrest, hne, hnot⟩
    · rw [cleanupFrom_cons r c cur k rest s hk]
      simp only [ne_eq, List.append_eq_nil, not_and_or]
      constructor
      · rintro (hb | hrest)
        · refine ⟨[], k, rest, rfl, hk, ?_⟩
          rw [cleanupFrom_nil, ← cleanupHash_ret_none_iff]
          intro hnone
          exact hb (by rw [hnone]; rfl)
        · obtain ⟨pre, h, post, hdec, hne, hnot⟩ := (ih _).1 hrest
          refine ⟨k :: pre, h, post, by rw [hdec]; rfl, hne, ?_⟩
          rwa [cleanupFrom_cons r c cur k pre s hk]
      · rintro ⟨pre, h, post, hdec, hne, hnot⟩
        cases pre with
        | nil =>
          simp only [List.nil_append, List.cons.injEq] at hdec
          obtain ⟨rfl, -⟩ := hdec
          left
          rw [cleanupFrom_nil, ← cleanupHash_ret_none_iff] at hnot
          intro hnil
          apply hnot
          cases hb : (cleanupHash r c k s).ret with
          | none => rfl
          | some e => rw [hb] at hnil; simp at hnil
        | cons p pre' =>
          simp only [List.cons_append, List.cons.injEq] at hdec
          obtain ⟨rfl, hrest⟩ := hdec
          right
          rw [cleanupFrom_cons r c cur k pre' s hk] at hnot
          exact (ih _).2 ⟨pre', h, post, hrest, hne, hnot⟩

theorem not_deleteFails_of (e : Option ApiError) (h : e = none ∨ e = some .notFound) :
    ¬ deleteFails e := by
  rintro ⟨err, he, hnf⟩
  rcases h with h | h
  · rw [h] at he
    exact Option.noConfusion he
  · rw [h, Option.some.injEq] at he
    subst he
    simp [IsNotFound] at hnf

/-- C6 (amended): in `configCheckCleanup` the failure of one fingerprint does not stop the
loop: for every recorded fingerprint other than `currentHash` whose check secret can be
built, the `Delete` of that secret is issued. A recorded fingerprint other than
`currentHash` (occurring once among the keys) is in the returned `removedHashes` if and
only if its check objects could be built and none of its three deletions, issued in the
state reached after the fingerprints visited before it, failed with an error other than
not-found; and the returned error is non-nil if and only if this fails for at least one
such fingerprint. -/
theorem configCheckCleanup_aggregate {σ : Type} (r : Reconciler) (c : Client σ)
    (currentHash : String) (s : σ) :
    (∀ h ∈ r.ConfigCheckResults.map Prod.fst, h ≠ currentHash →
      ∀ sec, newCheckSecret r h = .ok sec →
        Call.Delete (.secret sec) ∈ (configCheckCleanup r c currentHash s).calls) ∧
    (∀ pre h post, r.ConfigCheckResults.map Prod.fst = pre ++ h :: post →
      h ≠ currentHash → h ∉ pre → h ∉ post →
      (h ∈ (configCheckCleanup r c currentHash s).ret.removedHashes ↔
        fullyRemoved r c h (cleanupFrom r c currentHash pre s).st)) ∧
    ((configCheckCleanup r c currentHash s).ret.multierr ≠ [] ↔
      ∃ pre h post, r.ConfigCheckResults.map Prod.fst = pre ++ h :: post ∧
        h ≠ currentHash ∧ ¬ fullyRemoved r c h (cleanupFrom r c currentHash pre s).st) := by
  rw [configCheckCleanup_eq]
  refine ⟨?_, ?_, cleanupFrom_multierr r c currentHash _ s⟩
  · intro h hm hne sec hsec
    obtain ⟨pre, post, hdec⟩ := List.append_of_mem hm
    rw [hdec, cleanupFrom_append, cleanupFrom_cons r c currentHash h post _ hne]
    simp only [List.mem_append]
    right
    left
    unfold cleanupHash
    simp only [hsec]
    rcases (c.Delete (cleanupFrom r c currentHash pre s).st
      (.secret sec)).2.filter (fun err => !IsNotFound err) with _ | e1
    · rcases newCheckOutputSecret r h with e | out
      · simp
      · simp only []
        rcases (c.Delete (c.Delete (cleanupFrom r c currentHash pre s).st
          (.secret sec)).1 (.secret out)).2.filter (fun err => !IsNotFound err) with _ | e2
        · rcases (c.Delete (c.Delete (c.Delete (cleanupFrom r c currentHash pre s).st
            (.secret sec)).1 (.secret out)).1 (.pod (newCheckPod r h))).2.filter
              (fun err => !IsNotFound err) with _ | e3 <;> simp
        · simp
    · simp
  · intro pre h post hdec hne hpre hpost
    rw [hdec, cleanupFrom_append, cleanupFrom_cons r c currentHash h post _ hne]
    simp only [List.mem_append]
    rw [← cleanupHash_ret_none_iff]
    constructor
    · rintro (hm | hm | hm)
      · exact absurd (mem_removedHashes r c currentHash pre s h hm).1 hpre
      · by_cases hb : (cleanupHash r c h (cleanupFrom r c currentHash pre s).st).ret = none
        · exact hb
        · simp [hb] at hm
      · exact absurd (mem_removedHashes r c currentHash post _ h hm).1 hpost
    · intro hb
      right
      left
      simp [hb]

/-- C6 (amended) at the in-memory cluster that refuses to delete the objects named after
`f2` (its check secret and its check pod), with
records for `f1`, `f2`, `f3` and `f1` retained: `f3` is removed although `f2`, visited
before it, failed; `f2` is not removed; the error is non-nil. -/
theorem configCheckCleanup_aggregate_witness :
    "f3" ∈ (configCheckCleanup
      (exampleReconciler "a" [("f1", true), ("f2", true), ("f3", false)])
      (denyingClient ["logging-syslog-ng-configcheck-f2"]) "f1" []).ret.removedHashes ∧
    (configCheckCleanup
      (exampleReconciler "a" [("f1", true), ("f2", true), ("f3", false)])
      (denyingClient ["logging-syslog-ng-configcheck-f2"]) "f1" []).ret.multierr ≠ [] :=
  ⟨((configCheckCleanup_aggregate
      (exampleReconciler "a" [("f1", true), ("f2", true), ("f3", false)])
      (denyingClient ["logging-syslog-ng-configcheck-f2"]) "f1" []).2.1
        ["f1", "f2"] "f3" [] rfl (by decide) (by decide) (by decide)).2
      ⟨_, _, rfl, rfl, not_deleteFails_of _ (Or.inr rfl), not_deleteFails_of _ (Or.inr rfl),
        not_deleteFails_of _ (Or.inr rfl)⟩,
   (configCheckCleanup_aggregate
      (exampleReconciler "a" [("f1", true), ("f2", true), ("f3", false)])
      (denyingClient ["logging-syslog-ng-configcheck-f2"]) "f1" []).2.2.2
      ⟨["f1"], "f2", ["f3"], rfl, by decide,
        by
          rintro ⟨sec, out, hs, ho, h1, -, -⟩
          cases hs
          exact h1 ⟨_, rfl, rfl⟩⟩⟩

end SyslogNG

namespace FluentBit

/-! ## Rendering the zero model -/

/-- C10 (as stated, refuted): the text rendered for the model with every field at its
zero value contains a `[FILTER]` block, the one of the kubernetes filter, which the
template emits unless `DisableKubernetesFilter` is set. -/
theorem render_zero_counterexample :
    render FluentBitConfig.zero =
      "\n[SERVICE]\n    Flush        0\n    Grace        0\n    Daemon       Off" ++
      "\n    Log_Level    \n    Parsers_File \n    Coro_Stack_Size    0" ++
      "\n\n[INPUT]\n    Name         tail" ++
      "\n[FILTER]\n    Name        kubernetes\n\n\n" ∧
    containsText (render FluentBitConfig.zero) "[FILTER]" :=
  ⟨rfl, ⟨("\n[SERVICE]\n    Flush        0\n    Grace        0\n    Daemon       Off" ++
      "\n    Log_Level    \n    Parsers_File \n    Coro_Stack_Size    0" ++
      "\n\n[INPUT]\n    Name         tail\n").toList,
    "\n    Name        kubernetes\n\n\n".toList, rfl⟩⟩

set_option maxRecDepth 100000 in
/-- C10 (amended): the text rendered for the model with every field at its zero value
contains the `[SERVICE]` section and the `[INPUT]` section, no `[OUTPUT]` block, and
after the input section nothing but the block of the kubernetes filter; and for the model
that differs from it only in `DisableKubernetesFilter` being set, the text is the
`[SERVICE]` section followed by the `[INPUT]` section, and contains neither a `[FILTER]`
block nor an `[OUTPUT]` block. -/
theorem render_zero_sections :
    render FluentBitConfig.zero =
      "\n[SERVICE]\n    Flush        0\n    Grace        0\n    Daemon       Off" ++
      "\n    Log_Level    \n    Parsers_File \n    Coro_Stack_Size    0" ++
      "\n\n[INPUT]\n    Name         tail" ++
      "\n[FILTER]\n    Name        kubernetes\n\n\n" ∧
    render { FluentBitConfig.zero with DisableKubernetesFilter := true } =
      "\n[SERVICE]\n    Flush        0\n    Grace        0\n    Daemon       Off" ++
      "\n    Log_Level    \n    Parsers_File \n    Coro_Stack_Size    0" ++
      "\n\n[INPUT]\n    Name         tail\n\n\n" ∧
    containsText (render FluentBitConfig.zero) "[SERVICE]" ∧
    containsText (render FluentBitConfig.zero) "[INPUT]" ∧
    ¬ containsText (render FluentBitConfig.zero) "[OUTPUT]" ∧
    ¬ containsText (render FluentBitConfig.zero) "Name        aws" ∧
    ¬ containsText (render FluentBitConfig.zero) "Name modify" ∧
    containsText
      (render { FluentBitConfig.zero with DisableKubernetesFilter := true }) "[SERVICE]" ∧
    containsText
      (render { FluentBitConfig.zero with DisableKubernetesFilter := true }) "[INPUT]" ∧
    ¬ containsText
      (render { FluentBitConfig.zero with DisableKubernetesFilter := true }) "[FILTER]" ∧
    ¬ containsText
      (render { FluentBitConfig.zero with DisableKubernetesFilter := true }) "[OUTPUT]" := by
  refine ⟨rfl, rfl, ?_, ?_, ?_, ?_, ?_, ?_, ?_, ?_, ?_⟩ <;> decide

end FluentBit

namespace FluentBit

/-! ## Scalar fields in the rendered text -/

theorem containsText_self (t : String) : containsText t t :=
  List.infix_refl _

theorem containsText_append_left (a b p : String) (h : containsText a p) :
    containsText (a ++ b) p := by
  unfold containsText at *
  simp only [String.toList, String.data_append] at *
  exact h.trans (List.infix_append' [] _ _)

theorem containsText_append_right (a b p : String) (h : containsText b p) :
    containsText (a ++ b) p := by
  unfold containsText at *
  simp only [String.toList, String.data_append] at *
  exact h.trans (List.suffix_append _ _).isInfix

theorem containsText_join (l : List String) (s p : String) (hs : s ∈ l)
    (h : containsText s p) : containsText (String.join l) p := by
  unfold containsText at *
  rw [String.join_eq]
  simp only [String.toList] at *
  exact h.trans (List.infix_of_mem_flatten (List.mem_map_of_mem _ hs))

theorem startsWithText_append (a b : String) : startsWithText (a ++ b) a := by
  unfold startsWithText
  simp only [String.toList, String.data_append]
  exact List.prefix_append _ _

theorem renderMap_nonEmptyEntries (entries : List (String × String)) :
    renderMap (nonEmptyEntries entries) = renderMap entries := by
  unfold renderMap nonEmptyEntries
  rw [String.join_eq, String.join_eq]
  congr 1
  induction entries with
  | nil => rfl
  | cons kv rest ih =>
    by_cases h : kv.2 = ""
    · simpa [List.filter_cons, h] using ih
    · simpa [List.filter_cons, h] using ih

theorem renderMap_of_empty (entries : List (String × String))
    (h : ∀ kv ∈ entries, kv.2 = "") : renderMap entries = "" := by
  have hf : nonEmptyEntries entries = [] := by
    unfold nonEmptyEntries
    rw [List.filter_eq_nil_iff]
    intro kv hkv
    simp [h kv hkv]
  rw [← renderMap_nonEmptyEntries, hf]
  rfl

theorem renderOperation_eq (o : Operation) :
    renderOperation o = o.Op ++ " " ++ o.Key ++ " " ++ o.Value := by
  unfold renderOperation
  by_cases h : o.Value = ""
  · simp [h]
  · simp [h]

theorem renderNetwork_silent (n : Network) (h : n.silent) : renderNetwork n = "" := by
  obtain ⟨h1, h2, h3, h4, h5, h6, h7, h8, h9⟩ := h
  unfold renderNetwork
  simp [h1, h2, h3, h4, h5, h6, h7, h8, h9]

end FluentBit

namespace FluentBit

theorem containsText_render_modify (m : FluentBitConfig) (p : String)
    (h : containsText (String.join (m.FilterModify.map renderModify)) p) :
    containsText (render m) p := by
  unfold render
  exact containsText_append_left _ _ _ (containsText_append_left _ _ _
    (containsText_append_left _ _ _ (containsText_append_left _ _ _
      (containsText_append_right _ _ _ h))))

theorem containsText_render_forward (m : FluentBitConfig) (p : String)
    (h : containsText (renderForward m) p) : containsText (render m) p := by
  unfold render
  exact containsText_append_left _ _ _ (containsText_append_left _ _ _
    (containsText_append_right _ _ _ h))

theorem containsText_render_syslogNG (m : FluentBitConfig) (p : String)
    (h : containsText (renderSyslogNG m) p) : containsText (render m) p := by
  unfold render
  exact containsText_append_left _ _ _ (containsText_append_right _ _ _ h)

end FluentBit

namespace FluentBit

/-! ### The text line by line -/

theorem join_cons (a : String) (l : List String) :
    String.join (a :: l) = a ++ String.join l := by
  rw [String.join_eq, String.join_eq]
  apply String.ext
  simp

theorem join_append (l₁ l₂ : List String) :
    String.join (l₁ ++ l₂) = String.join l₁ ++ String.join l₂ := by
  rw [String.join_eq, String.join_eq, String.join_eq]
  apply String.ext
  simp

theorem emitLines_nil : emitLines [] = "" := rfl

theorem emitLines_cons (o : Option String) (ls : List (Option String)) :
    emitLines (o :: ls) = optLine o ++ emitLines ls := by
  unfold emitLines
  rw [List.map_cons, join_cons]

theorem emitLines_append (l₁ l₂ : List (Option String)) :
    emitLines (l₁ ++ l₂) = emitLines l₁ ++ emitLines l₂ := by
  unfold emitLines
  rw [List.map_append, join_append]

theorem optLine_some (l : String) : optLine (some l) = "\n    " ++ l := rfl

theorem optLine_lineIfSet (flag : Bool) (key value : String) :
    optLine (lineIfSet flag key value) = if flag then "\n    " ++ (key ++ value) else "" := by
  cases flag <;> rfl

theorem optLine_lineIfNonEmpty (key value : String) :
    optLine (lineIfNonEmpty key value) =
      if value ≠ "" then "\n    " ++ (key ++ value) else "" := by
  unfold lineIfNonEmpty
  by_cases h : value = "" <;> simp [h, optLine]

theorem emitLines_mapLines (entries : List (String × String)) :
    emitLines (mapLines entries) = renderMap entries := by
  unfold emitLines mapLines renderMap
  rw [List.map_map]
  congr 1
  apply List.map_congr_left
  intro kv _
  by_cases h : kv.2 = ""
  · simp [lineIfNonEmpty, optLine, h]
  · simp [lineIfNonEmpty, optLine, h, String.append_assoc]

theorem emitLines_networkLines (n : Network) :
    emitLines (networkLines n) = renderNetwork n := by
  unfold networkLines renderNetwork
  simp only [emitLines_cons, emitLines_nil, optLine_lineIfSet, optLine_lineIfNonEmpty,
    String.append_empty]
  apply String.ext
  simp only [String.data_append, List.append_assoc, apply_ite String.data]
  rfl

end FluentBit

namespace FluentBit

theorem emitLines_map_some {α : Type} (l : List α) (f : α → String) :
    emitLines (l.map (fun a => some (f a))) = String.join (l.map (fun a => "\n    " ++ f a)) := by
  unfold emitLines
  rw [List.map_map]
  rfl

theorem emitLines_parserLines (start : Nat) (l : List String) :
    emitLines (parserLines start l) = renderParserN start l := by
  induction l generalizing start with
  | nil => rfl
  | cons v rest ih =>
    simp only [parserLines, renderParserN, emitLines_cons, optLine_lineIfNonEmpty, ih]
    apply String.ext
    simp only [String.data_append, List.append_assoc, apply_ite String.data]
    rfl

theorem renderService_lines (m : FluentBitConfig) :
    renderService m = "\n[SERVICE]" ++ emitLines (serviceLines m) := by
  unfold renderService serviceLines
  simp only [emitLines_append, emitLines_cons, emitLines_nil, optLine_some,
    optLine_lineIfNonEmpty, emitLines_mapLines, apply_ite emitLines, String.append_empty]
  apply String.ext
  simp only [String.data_append, List.append_assoc, apply_ite String.data]
  rfl

theorem renderInput_lines (m : FluentBitConfig) :
    renderInput m = "\n\n[INPUT]" ++ emitLines (inputLines m) := by
  unfold renderInput inputLines
  simp only [emitLines_append, emitLines_cons, emitLines_nil, optLine_some,
    emitLines_mapLines, emitLines_parserLines, apply_ite emitLines, String.append_empty]
  apply String.ext
  simp only [String.data_append, List.append_assoc, apply_ite String.data]
  rfl

theorem renderFilters_blocks (m : FluentBitConfig) : renderFilters m = filterBlocks m := by
  unfold renderFilters filterBlocks
  simp only [emitLines_cons, optLine_some, emitLines_mapLines]
  apply String.ext
  simp only [String.data_append, List.append_assoc, apply_ite String.data]
  rfl

theorem renderModify_block (f : FilterModify) : renderModify f = modifyBlock f := by
  unfold renderModify modifyBlock
  simp only [emitLines_append, emitLines_cons, emitLines_nil, optLine_some,
    String.append_empty]
  rw [emitLines_map_some f.Conditions
      (fun o => "Condition " ++ o.Op ++ " " ++ o.Key ++ " " ++ o.Value),
    emitLines_map_some f.Rules (fun o => o.Op ++ " " ++ o.Key ++ " " ++ o.Value)]
  have hc : f.Conditions.map (fun o => "\n    Condition " ++ renderOperation o) =
      f.Conditions.map
        (fun o => "\n    " ++ ("Condition " ++ o.Op ++ " " ++ o.Key ++ " " ++ o.Value)) := by
    apply List.map_congr_left
    intro o _
    rw [renderOperation_eq]
    apply String.ext
    simp only [String.data_append, List.append_assoc]
    rfl
  have hr : f.Rules.map (fun o => "\n    " ++ renderOperation o) =
      f.Rules.map (fun o => "\n    " ++ (o.Op ++ " " ++ o.Key ++ " " ++ o.Value)) := by
    apply List.map_congr_left
    intro o _
    rw [renderOperation_eq]
  rw [hc, hr]
  apply String.ext
  simp only [String.data_append, List.append_assoc]
  rfl

theorem renderMatch_line (t : Target) : renderMatch t = "\n    " ++ matchLine t := by
  unfold renderMatch matchLine
  by_cases h : t.Namespace = "*"
  · simp [h]
  · simp only [h, if_false]
    apply String.ext
    simp only [String.data_append, List.append_assoc]
    rfl

theorem renderForwardTarget_lines (out : FluentForwardOutput) (t : Target) :
    renderForwardTarget out t = "\n[OUTPUT]" ++ emitLines (forwardLines out t) := by
  unfold renderForwardTarget forwardLines
  simp only [emitLines_append, emitLines_cons, emitLines_nil, optLine_some,
    emitLines_mapLines, emitLines_networkLines, apply_ite emitLines, apply_ite optLine,
    String.append_empty, renderMatch_line]
  apply String.ext
  simp only [String.data_append, List.append_assoc, apply_ite String.data]
  rfl

theorem renderSyslogNGTarget_lines (out : SyslogNGOutput) (t : Target) :
    renderSyslogNGTarget out t = "\n[OUTPUT]" ++ emitLines (syslogNGLines out t) := by
  unfold renderSyslogNGTarget syslogNGLines
  simp only [emitLines_append, emitLines_cons, emitLines_nil, optLine_some,
    optLine_lineIfNonEmpty, emitLines_networkLines, String.append_empty, renderMatch_line]
  cases out.Workers with
  | none =>
    apply String.ext
    simp only [Option.map_none', optLine, String.data_append, List.append_assoc,
      apply_ite String.data]
    rfl
  | some w =>
    apply String.ext
    simp only [Option.map_some', optLine, String.data_append, List.append_assoc,
      apply_ite String.data]
    rfl

/-- The text rendered from the template is the text described line by line. -/
theorem render_eq_renderByLines (m : FluentBitConfig) : render m = renderByLines m := by
  unfold render renderByLines outputBlocks renderForward renderSyslogNG
  rw [renderService_lines, renderInput_lines, renderFilters_blocks]
  have hm : m.FilterModify.map renderModify = m.FilterModify.map modifyBlock :=
    List.map_congr_left (fun f _ => renderModify_block f)
  have hf : ∀ out : FluentForwardOutput, renderForwardTarget out =
      fun t => "\n[OUTPUT]" ++ emitLines (forwardLines out t) :=
    fun out => funext (renderForwardTarget_lines out)
  have hs : ∀ out : SyslogNGOutput, renderSyslogNGTarget out =
      fun t => "\n[OUTPUT]" ++ emitLines (syslogNGLines out t) :=
    fun out => funext (renderSyslogNGTarget_lines out)
  rw [hm]
  simp only [hf, hs, String.append_assoc]

end FluentBit

namespace FluentBit

set_option maxRecDepth 100000 in
/-- C11 (as stated, refuted): the model with every field at its zero value renders the
lines `Flush        0`, `Log_Level    ` and `Parsers_File ` with a zero or empty value;
a syslog-ng target with an empty host and the port zero renders `Host ` and `Port 0`; a
modify condition without value renders its line `Condition Key_exists stream `. -/
theorem render_scalar_fields_counterexample :
    containsText (render FluentBitConfig.zero) "\n    Flush        0\n" ∧
    containsText (render FluentBitConfig.zero) "\n    Log_Level    \n" ∧
    containsText (render FluentBitConfig.zero) "\n    Parsers_File \n" ∧
    containsText (render exampleModel) "\n    Host \n    Port 0\n" ∧
    containsText (render exampleModel) "\n    Condition Key_exists stream \n" := by
  refine ⟨?_, ?_, ?_, ?_, ?_⟩ <;> decide

/-- C11 (amended): for every model the rendered text starts with the lines `Flush`,
`Grace`, `Daemon`, `Log_Level` and `Parsers_File` of the default parsers, each with its
value whatever it is, zero and empty included, and goes on with the line `Parsers_File`
of the custom parsers only when that value is not empty, then with `Coro_Stack_Size` and
its value. An entry of a key to value map with an empty value leaves no trace in the text.
Every target of an output has its lines `Host` and `Port` with their values whatever
they are (for the forward output unless the upstream is enabled), and every condition
and rule of a modify filter has its line, which ends with the value. The `net.*` lines
are absent when no flag is set and no text is given, and a syslog-ng target without date
key, date format and workers has no line after `Format json_lines` but those. Last, the
whole text is the one `renderByLines` describes line by line: in every block of the
forward output and of the syslog-ng output each `net.*` line is there exactly when its
flag is set or its text is not empty, and in a syslog-ng block each of `json_date_key`,
`json_date_format` and `Workers` is there exactly when its own value is not empty or
nil, whatever the other two are; the text contains the block so described of every
target of either output. -/
theorem render_scalar_fields (m : FluentBitConfig) :
    startsWithText (render m) (serviceHead m) ∧
    (m.CustomParsers = "" →
      startsWithText (render m)
        (serviceHead m ++ "\n    Coro_Stack_Size    " ++ printInt m.CoroStackSize)) ∧
    (m.CustomParsers ≠ "" →
      startsWithText (render m)
        (serviceHead m ++ "\n    Parsers_File " ++ m.CustomParsers ++
          "\n    Coro_Stack_Size    " ++ printInt m.CoroStackSize)) ∧
    (∀ entries, (∀ kv ∈ entries, kv.2 = "") → renderMap entries = "") ∧
    render { m with
        BufferStorage := nonEmptyEntries m.BufferStorage
        Input := { m.Input with Values := nonEmptyEntries m.Input.Values }
        KubernetesFilter := nonEmptyEntries m.KubernetesFilter
        FluentForwardOutput := m.FluentForwardOutput.map
          (fun out => { out with Options := nonEmptyEntries out.Options }) } = render m ∧
    (∀ out, m.SyslogNGOutput = some out → ∀ t ∈ out.Targets,
      containsText (render m)
        ("\n    Host " ++ t.Host ++ "\n    Port " ++ printInt t.Port ++
          "\n    Format json_lines")) ∧
    (∀ out, m.FluentForwardOutput = some out → out.UpstreamEnabled = false →
      ∀ t ∈ out.Targets,
        containsText (render m)
          ("\n    Host          " ++ t.Host ++ "\n    Port          " ++ printInt t.Port ++
            "\n    ")) ∧
    (∀ f ∈ m.FilterModify,
      (∀ o ∈ f.Conditions,
        containsText (render m) ("\n    Condition " ++ o.Op ++ " " ++ o.Key ++ " " ++ o.Value)) ∧
      (∀ o ∈ f.Rules,
        containsText (render m) ("\n    " ++ o.Op ++ " " ++ o.Key ++ " " ++ o.Value))) ∧
    (∀ n : Network, n.silent → renderNetwork n = "") ∧
    (∀ (out : SyslogNGOutput) (t : Target), out.JSONDateKey = "" → out.JSONDateFormat = "" →
      out.Workers = none →
      renderSyslogNGTarget out t =
        "\n[OUTPUT]\n    Name tcp" ++ renderMatch t ++
        "\n    Host " ++ t.Host ++ "\n    Port " ++ printInt t.Port ++
        "\n    Format json_lines" ++ renderNetwork out.Network) ∧
    render m = renderByLines m ∧
    (∀ out, m.FluentForwardOutput = some out → ∀ t ∈ out.Targets,
      containsText (render m) ("\n[OUTPUT]" ++ emitLines (forwardLines out t))) ∧
    (∀ out, m.SyslogNGOutput = some out → ∀ t ∈ out.Targets,
      containsText (render m) ("\n[OUTPUT]" ++ emitLines (syslogNGLines out t))) := by
  refine ⟨?_, ?_, ?_, renderMap_of_empty, ?_, ?_, ?_, ?_, renderNetwork_silent, ?_,
    render_eq_renderByLines m, ?_, ?_⟩
  · unfold startsWithText
    simp only [render, renderService, serviceHead, String.toList, String.data_append,
      List.append_assoc, List.prefix_append_right_inj]
    exact List.prefix_append _ _
  · intro hc
    unfold startsWithText
    simp only [render, renderService, serviceHead, String.toList, String.data_append,
      List.append_assoc, List.prefix_append_right_inj, hc, ne_eq, not_true_eq_false,
      if_false, List.nil_append]
    exact List.prefix_append _ _
  · intro hc
    unfold startsWithText
    simp only [render, renderService, serviceHead, String.toList, String.data_append,
      List.append_assoc, List.prefix_append_right_inj, hc, ne_eq, not_false_eq_true,
      if_true]
    exact List.prefix_append _ _
  · unfold render renderService renderInput renderFilters renderForward renderSyslogNG
    simp only [renderMap_nonEmptyEntries]
    cases hf : m.FluentForwardOutput with
    | none => rfl
    | some out =>
      simp only [Option.map_some']
      have hx : renderForwardTarget { out with Options := nonEmptyEntries out.Options } =
          renderForwardTarget out := by
        funext t
        unfold renderForwardTarget
        simp only [renderMap_nonEmptyEntries]
      rw [hx]
  · intro out hout t ht
    apply containsText_render_syslogNG
    unfold renderSyslogNG
    rw [hout]
    apply containsText_join _ (renderSyslogNGTarget out t) _ (List.mem_map_of_mem _ ht)
    unfold renderSyslogNGTarget
    apply containsText_append_left
    apply containsText_append_left
    apply containsText_append_left
    apply containsText_append_left
    have h : "\n[OUTPUT]\n    Name tcp" ++ renderMatch t ++ "\n    Host " ++ t.Host ++
        "\n    Port " ++ printInt t.Port ++ "\n    Format json_lines" =
        ("\n[OUTPUT]\n    Name tcp" ++ renderMatch t) ++ ("\n    Host " ++ t.Host ++
        "\n    Port " ++ printInt t.Port ++ "\n    Format json_lines") := by
      simp only [String.append_assoc]
    rw [h]
    exact containsText_append_right _ _ _ (containsText_self _)
  · intro out hout hup t ht
    apply containsText_render_forward
    unfold renderForward
    rw [hout]
    apply containsText_join _ (renderForwardTarget out t) _ (List.mem_map_of_mem _ ht)
    unfold renderForwardTarget
    apply containsText_append_left
    apply containsText_append_left
    apply containsText_append_left
    have h : "\n[OUTPUT]\n    Name          forward" ++ renderMatch t ++
        (if out.UpstreamEnabled then "\n    Upstream      " ++ out.UpstreamConfigPath
         else "\n    Host          " ++ t.Host ++ "\n    Port          " ++ printInt t.Port) ++
        "\n    " =
        ("\n[OUTPUT]\n    Name          forward" ++ renderMatch t) ++
        ("\n    Host          " ++ t.Host ++ "\n    Port          " ++ printInt t.Port ++
          "\n    ") := by
      simp [hup, String.append_assoc]
    rw [h]
    exact containsText_append_right _ _ _ (containsText_self _)
  · intro f hf
    constructor
    · intro o ho
      apply containsText_render_modify
      apply containsText_join _ (renderModify f) _ (List.mem_map_of_mem _ hf)
      unfold renderModify
      apply containsText_append_left
      apply containsText_append_right
      apply containsText_join _ ("\n    Condition " ++ renderOperation o) _
        (List.mem_map_of_mem (fun o => "\n    Condition " ++ renderOperation o) ho)
      rw [renderOperation_eq]
      simp only [String.append_assoc]
      exact containsText_self _
    · intro o ho
      apply containsText_render_modify
      apply containsText_join _ (renderModify f) _ (List.mem_map_of_mem _ hf)
      unfold renderModify
      apply containsText_append_right
      apply containsText_join _ ("\n    " ++ renderOperation o) _
        (List.mem_map_of_mem (fun o => "\n    " ++ renderOperation o) ho)
      rw [renderOperation_eq]
      simp only [String.append_assoc]
      exact containsText_self _
  · intro out t h1 h2 h3
    unfold renderSyslogNGTarget
    simp [h1, h2, h3]
  · intro out hout t ht
    apply containsText_render_forward
    unfold renderForward
    rw [hout, ← renderForwardTarget_lines]
    exact containsText_join _ (renderForwardTarget out t) _ (List.mem_map_of_mem _ ht)
      (containsText_self _)
  · intro out hout t ht
    apply containsText_render_syslogNG
    unfold renderSyslogNG
    rw [hout, ← renderSyslogNGTarget_lines]
    exact containsText_join _ (renderSyslogNGTarget out t) _ (List.mem_map_of_mem _ ht)
      (containsText_self _)

end FluentBit

namespace FluentBit

/-- C11 (amended) at the model with a valueless modify condition and a syslog-ng target
without host and port, at the zero model with custom parsers, and at the zero model with
a forward output to one target without host and port. -/
theorem render_scalar_fields_witness :
    startsWithText (render exampleModel)
      (serviceHead exampleModel ++ "\n    Coro_Stack_Size    " ++
        printInt exampleModel.CoroStackSize) ∧
    startsWithText (render { FluentBitConfig.zero with CustomParsers := "custom.conf" })
      (serviceHead { FluentBitConfig.zero with CustomParsers := "custom.conf" } ++
        "\n    Parsers_File " ++ "custom.conf" ++ "\n    Coro_Stack_Size    " ++ printInt 0) ∧
    renderMap [("storage.path", "")] = "" ∧
    containsText (render exampleModel)
      ("\n    Host " ++ "" ++ "\n    Port " ++ printInt 0 ++ "\n    Format json_lines") ∧
    containsText
      (render { FluentBitConfig.zero with
        FluentForwardOutput := some
          { Targets := [{ Namespace := "*", Host := "", Port := 0 }],
            UpstreamEnabled := false, UpstreamConfigPath := "", TLSEnabled := false,
            TLSSharedKey := "", Network := Network.zero, Options := [] } })
      ("\n    Host          " ++ "" ++ "\n    Port          " ++ printInt 0 ++ "\n    ") ∧
    containsText (render exampleModel)
      ("\n    Condition " ++ "Key_exists" ++ " " ++ "stream" ++ " " ++ "") ∧
    renderNetwork Network.zero = "" ∧
    renderSyslogNGTarget
        { Targets := [], JSONDateKey := "", JSONDateFormat := "", Workers := none,
          Network := Network.zero }
        { Namespace := "*", Host := "", Port := 0 } =
      "\n[OUTPUT]\n    Name tcp" ++ renderMatch { Namespace := "*", Host := "", Port := 0 } ++
      "\n    Host " ++ "" ++ "\n    Port " ++ printInt 0 ++
      "\n    Format json_lines" ++ renderNetwork Network.zero ∧
    render exampleModel = renderByLines exampleModel ∧
    containsText (render exampleModel)
      ("\n[OUTPUT]" ++ emitLines
        (syslogNGLines
          { Targets := [{ Namespace := "*", Host := "", Port := 0 }],
            JSONDateKey := "", JSONDateFormat := "", Workers := none,
            Network := Network.zero }
          { Namespace := "*", Host := "", Port := 0 })) :=
  ⟨(render_scalar_fields exampleModel).2.1 rfl,
   (render_scalar_fields { FluentBitConfig.zero with CustomParsers := "custom.conf" }).2.2.1
     (by decide),
   (render_scalar_fields exampleModel).2.2.2.1 [("storage.path", "")] (by decide),
   (render_scalar_fields exampleModel).2.2.2.2.2.1 _ rfl
     { Namespace := "*", Host := "", Port := 0 } (List.mem_singleton.2 rfl),
   (render_scalar_fields _).2.2.2.2.2.2.1 _ rfl rfl
     { Namespace := "*", Host := "", Port := 0 } (List.mem_singleton.2 rfl),
   ((render_scalar_fields exampleModel).2.2.2.2.2.2.2.1 _ (List.mem_singleton.2 rfl)).1
     { Op := "Key_exists", Key := "stream", Value := "" } (List.mem_singleton.2 rfl),
   (render_scalar_fields exampleModel).2.2.2.2.2.2.2.2.1 Network.zero
     ⟨rfl, rfl, rfl, rfl, rfl, rfl, rfl, rfl, rfl⟩,
   (render_scalar_fields exampleModel).2.2.2.2.2.2.2.2.2.1 _ _ rfl rfl rfl,
   (render_scalar_fields exampleModel).2.2.2.2.2.2.2.2.2.2.1,
   (render_scalar_fields exampleModel).2.2.2.2.2.2.2.2.2.2.2.2 _ rfl
     { Namespace := "*", Host := "", Port := 0 } (List.mem_singleton.2 rfl)⟩

end FluentBit
